import Mathlib

/-!
# tele-anonymous-chat: matchmaking, chat sessions and the outbound queue

A shallow embedding of the Go packages `models`, `config`, `database`, `queue`
and `handlers`.

Conventions of the embedding

* `int64` identifiers are `Int` (no arithmetic is performed on them).
* An instant (`time.Time`) is a `Nat`: nanoseconds since the Unix epoch.  The
  `last_activity` column holds RFC3339 text, which has one-second resolution; the
  column is modelled by the number of whole seconds it denotes, so
  `formatRFC3339` drops the sub-second part and `parseRFC3339` is exact.
* The `users` table is the list of its rows.  `PrimaryKey` states the
  `user_id INTEGER PRIMARY KEY` constraint; operations do not require it and
  preserve it.
* Every call to the store (`GetUserState`, `SaveUserState`,
  `FindPotentialMatches`, `GetActiveChats`) may return an error.  The oracle
  `fails : Nat → Bool` tells whether the store call number `k` of the run
  (counted in `World.calls`) returns an error; `noFail` is the oracle of a store
  whose reads and writes succeed.
* `rand.Seed(now); rand.Shuffle(...)` is an oracle `shuffle seed l` which is
  only known to return a permutation of `l`.
* All clock readings taken during one handler invocation are the instant `now`
  passed to the handler.
-/

namespace TeleChat

/-! ## package models -/

/-- UserSettings contains user preferences for matching. -/
structure UserSettings where
  Country : String
  Language : String
  Gender : String
  deriving DecidableEq

/-- UserState represents the state of a user in the system. -/
structure UserState where
  UserID : Int
  IsActive : Bool
  CurrentChat : Int
  LastActivity : Nat
  Settings : UserSettings
  MatchStartTime : Option Nat
  deriving DecidableEq

/-- NewUserState creates a new UserState instance; `now` is the reading of the clock. -/
def NewUserState (now : Nat) (userID : Int) : UserState :=
  { UserID := userID
    IsActive := false
    CurrentChat := 0
    LastActivity := now
    Settings := { Country := "", Language := "", Gender := "" }
    MatchStartTime := none }

/-- MessageType represents the type of message to be sent. -/
inductive MessageType where
  | TextMessage
  | PhotoMessage
  deriving DecidableEq

/-- QueuedMessage represents a message in the queue to be sent (the field `Type` of the
source is `MsgType`). -/
structure QueuedMessage where
  ChatID : Int
  MsgType : MessageType
  Text : String
  PhotoFileID : String
  Caption : String
  deriving DecidableEq

/-- The zero value `models.QueuedMessage{}`. -/
def QueuedMessage.zero : QueuedMessage :=
  { ChatID := 0, MsgType := MessageType.TextMessage, Text := "", PhotoFileID := "", Caption := "" }

/-! ## package config -/

/-- One second, in nanoseconds (`time.Second`). -/
def Second : Nat := 1000000000

/-- InactivityTimeout is the duration after which an inactive chat will be terminated:
`1 * time.Hour`, in nanoseconds. -/
def InactivityTimeout : Nat := 3600 * Second

/-- MatchTimeout is the maximum duration to wait for finding a match: `2 * time.Minute`. -/
def MatchTimeout : Nat := 120 * Second

/-- MessageRateLimit is the maximum number of messages per second. -/
def MessageRateLimit : Nat := 30

/-! ## package database -/

/-- A row of the table `users`, as `SaveUserState` writes it. -/
structure UserRow where
  user_id : Int
  is_active : Bool
  current_chat : Int
  last_activity : Nat
  country : String
  language : String
  gender : String
  deriving DecidableEq

/-- The text `t.Format(time.RFC3339)`, as the number of whole seconds it denotes. -/
def formatRFC3339 (t : Nat) : Nat := t / Second

/-- The instant `time.Parse(time.RFC3339, s)` of a stored timestamp. -/
def parseRFC3339 (s : Nat) : Nat := s * Second

/-- The row selected by `WHERE user_id = ?`. -/
def lookup (rows : List UserRow) (userID : Int) : Option UserRow :=
  rows.find? (fun r => decide (r.user_id = userID))

/-- The table after `INSERT OR REPLACE` of the row `r`. -/
def upsert : List UserRow → UserRow → List UserRow
  | [], r => [r]
  | x :: xs, r => if x.user_id = r.user_id then r :: xs else x :: upsert xs r

/-- The constraint `user_id INTEGER PRIMARY KEY`: no two rows share a `user_id`. -/
def PrimaryKey (rows : List UserRow) : Prop :=
  (rows.map (fun r => r.user_id)).Nodup

instance (rows : List UserRow) : Decidable (PrimaryKey rows) := by
  unfold PrimaryKey; infer_instance

/-- The user state that `GetUserState` builds from a selected row. -/
def rowToState (userID : Int) (r : UserRow) : UserState :=
  { UserID := userID
    IsActive := r.is_active
    CurrentChat := r.current_chat
    LastActivity := parseRFC3339 r.last_activity
    Settings := { Country := r.country, Language := r.language, Gender := r.gender }
    MatchStartTime := none }

/-- The row that `SaveUserState` writes for a user state. -/
def stateToRow (state : UserState) : UserRow :=
  { user_id := state.UserID
    is_active := state.IsActive
    current_chat := state.CurrentChat
    last_activity := formatRFC3339 state.LastActivity
    country := state.Settings.Country
    language := state.Settings.Language
    gender := state.Settings.Gender }

/-- The result of a successful `GetUserState`: the state of the stored row, or a new
user state when there is no row (`sql.ErrNoRows`). -/
def stateOf (now : Nat) (rows : List UserRow) (userID : Int) : UserState :=
  match lookup rows userID with
  | none => NewUserState now userID
  | some r => rowToState userID r

/-- ActiveChat represents a chat between two users with their last activity times. -/
structure ActiveChat where
  User1ID : Int
  User2ID : Int
  LastActivity1 : Nat
  LastActivity2 : Nat
  deriving DecidableEq

/-- The rows of the query of `FindPotentialMatches`:
`WHERE is_active = 1 AND current_chat = 0 AND user_id != ?`. -/
def potentialMatches (rows : List UserRow) (userID : Int) : List Int :=
  (rows.filter (fun r =>
    r.is_active && decide (r.current_chat = 0) && decide (r.user_id ≠ userID))).map
      (fun r => r.user_id)

/-- The rows of the query of `GetActiveChats`: the self-join of `users` with
`u1.current_chat = u2.user_id AND u2.current_chat = u1.user_id AND u1.user_id < u2.user_id`. -/
def activeChats (rows : List UserRow) : List ActiveChat :=
  rows.flatMap (fun u1 =>
    (rows.filter (fun u2 =>
      decide (u1.current_chat = u2.user_id) && decide (u2.current_chat = u1.user_id)
        && decide (u1.user_id < u2.user_id))).map
      (fun u2 =>
        { User1ID := u1.user_id
          User2ID := u2.user_id
          LastActivity1 := parseRFC3339 u1.last_activity
          LastActivity2 := parseRFC3339 u2.last_activity }))

/-! ## package queue -/

/-- MessageQueue manages the queue of messages to be sent (the fields `bot`, `mutex`
and `done` serve the transport and the synchronisation of goroutines). -/
structure MessageQueue where
  queue : List QueuedMessage
  running : Bool
  deriving DecidableEq

/-- NewMessageQueue creates a new message queue. -/
def NewMessageQueue : MessageQueue :=
  { queue := [], running := false }

/-- QueueTextMessage adds a text message to the queue. -/
def MessageQueue.QueueTextMessage (mq : MessageQueue) (chatID : Int) (text : String) :
    MessageQueue :=
  let message : QueuedMessage :=
    { ChatID := chatID, MsgType := MessageType.TextMessage, Text := text,
      PhotoFileID := "", Caption := "" }
  { mq with queue := mq.queue ++ [message] }

/-- QueuePhotoMessage adds a photo message to the queue. -/
def MessageQueue.QueuePhotoMessage (mq : MessageQueue) (chatID : Int) (photoFileID : String)
    (caption : String) : MessageQueue :=
  let message : QueuedMessage :=
    { ChatID := chatID, MsgType := MessageType.PhotoMessage, Text := "",
      PhotoFileID := photoFileID, Caption := caption }
  { mq with queue := mq.queue ++ [message] }

/-- The function dequeue removes and returns the first message in the queue, with the
flag `ok`. -/
def MessageQueue.dequeue (mq : MessageQueue) : (QueuedMessage × Bool) × MessageQueue :=
  match mq.queue with
  | [] => ((QueuedMessage.zero, false), mq)
  | msg :: rest => ((msg, true), { mq with queue := rest })

/-! ## The world of the handlers: store, outbound queue, transport -/

/-- An inline keyboard: rows of buttons, each a label and its callback data. -/
abbrev Keyboard := List (List (String × String))

/-- A value handed to `bot.Send`. -/
inductive Chattable where
  | Message (chatID : Int) (text : String) (keyboard : Keyboard)
  | EditMessageTextAndMarkup (chatID : Int) (messageID : Int) (text : String)
      (keyboard : Keyboard)
  | Photo (chatID : Int) (fileID : String) (caption : String)
  deriving DecidableEq

/-- What a `HandlerManager` acts on: the table `users` behind `h.db`, the queue
`h.msgQueue`, the values passed to `h.bot.Send` so far, and the number of calls made to
the store so far. -/
structure World where
  users : List UserRow
  msgQueue : MessageQueue
  sent : List Chattable
  calls : Nat
  deriving DecidableEq

/-- The world at start-up: empty table, new queue, nothing sent. -/
def World.empty : World :=
  { users := [], msgQueue := NewMessageQueue, sent := [], calls := 0 }

/-- The oracle of a store whose calls all succeed. -/
def noFail : Nat → Bool := fun _ => false

/-- GetUserState retrieves a user's state from the database; `none` is an error. -/
def GetUserState (fails : Nat → Bool) (now : Nat) (w : World) (userID : Int) :
    Option UserState × World :=
  if fails w.calls then (none, { w with calls := w.calls + 1 })
  else (some (stateOf now w.users userID), { w with calls := w.calls + 1 })

/-- SaveUserState stores a user's state in the database; the flag is `err != nil`. -/
def SaveUserState (fails : Nat → Bool) (w : World) (state : UserState) : Bool × World :=
  if fails w.calls then (true, { w with calls := w.calls + 1 })
  else (false, { w with users := upsert w.users (stateToRow state), calls := w.calls + 1 })

/-- FindPotentialMatches returns potential matches for a user; `none` is an error. -/
def FindPotentialMatches (fails : Nat → Bool) (w : World) (userID : Int) :
    Option (List Int) × World :=
  if fails w.calls then (none, { w with calls := w.calls + 1 })
  else (some (potentialMatches w.users userID), { w with calls := w.calls + 1 })

/-- GetActiveChats retrieves all active chats from the database; `none` is an error. -/
def GetActiveChats (fails : Nat → Bool) (w : World) : Option (List ActiveChat) × World :=
  if fails w.calls then (none, { w with calls := w.calls + 1 })
  else (some (activeChats w.users), { w with calls := w.calls + 1 })

/-- The call `h.msgQueue.QueueTextMessage(chatID, text)`. -/
def World.queueText (w : World) (chatID : Int) (text : String) : World :=
  { w with msgQueue := w.msgQueue.QueueTextMessage chatID text }

/-- The call `h.msgQueue.QueuePhotoMessage(chatID, photoFileID, caption)`. -/
def World.queuePhoto (w : World) (chatID : Int) (photoFileID caption : String) : World :=
  { w with msgQueue := w.msgQueue.QueuePhotoMessage chatID photoFileID caption }

/-- The call `h.bot.Send(c)`; its result is ignored by the handlers. -/
def World.send (w : World) (c : Chattable) : World :=
  { w with sent := w.sent ++ [c] }

/-! ## package handlers -/

/-- The text of the main menu. -/
def mainMenuText : String := "Main Menu - Use the buttons below to interact with the bot."

/-- The function showMainMenu displays the main menu. -/
def showMainMenu (fails : Nat → Bool) (now : Nat) (w : World) (userID chatID : Int)
    (isMessageSend : Bool) : World :=
  match GetUserState fails now w userID with
  | (none, w1) => w1
  | (some userState, w1) =>
    let statusText := if userState.IsActive then "Status: 🟢 Online" else "Status: 🔴 Offline"
    let keyboard : Keyboard :=
      [[("Show Active Users", "show_active"), (statusText, "toggle_active")],
       [("Settings", "settings"), ("Find Match", "find_match")]]
    if isMessageSend then w1.send (Chattable.Message chatID mainMenuText keyboard)
    else w1.send (Chattable.EditMessageTextAndMarkup chatID 0 mainMenuText keyboard)

/-- The function showSettingsMenu displays the settings menu. -/
def showSettingsMenu (fails : Nat → Bool) (now : Nat) (w : World) (userID chatID : Int) :
    World :=
  match GetUserState fails now w userID with
  | (none, w1) => w1
  | (some userState, w1) =>
    let countryText :=
      if userState.Settings.Country = "" then "Not set" else userState.Settings.Country
    let languageText :=
      if userState.Settings.Language = "" then "Not set" else userState.Settings.Language
    let genderText :=
      if userState.Settings.Gender = "" then "Not set" else userState.Settings.Gender
    let keyboard : Keyboard :=
      [[("Country: " ++ countryText, "set_country"), ("Clear", "clear_country")],
       [("Language: " ++ languageText, "set_language"), ("Clear", "clear_language")],
       [("Gender: " ++ genderText, "set_gender"), ("Clear", "clear_gender")],
       [("Back to Main Menu", "back_to_main")]]
    w1.send (Chattable.EditMessageTextAndMarkup chatID 0
      "Settings Menu - Select an option to change or clear:" keyboard)

/-- The function handleToggleActive toggles a user's active status. -/
def handleToggleActive (fails : Nat → Bool) (now : Nat) (w : World) (userID chatID : Int) :
    World :=
  match GetUserState fails now w userID with
  | (none, w1) => w1
  | (some userState, w1) =>
    let userState := { userState with IsActive := !userState.IsActive }
    match SaveUserState fails w1 userState with
    | (true, w2) => w2
    | (false, w2) => showMainMenu fails now w2 userID chatID false

/-- The assignment made by the `switch setting` of `handleSetSetting` and
`handleClearSetting`. -/
def assignSetting (userState : UserState) (setting value : String) : UserState :=
  if setting = "country" then
    { userState with Settings := { userState.Settings with Country := value } }
  else if setting = "language" then
    { userState with Settings := { userState.Settings with Language := value } }
  else if setting = "gender" then
    { userState with Settings := { userState.Settings with Gender := value } }
  else userState

/-- The function handleSetSetting sets a user preference. -/
def handleSetSetting (fails : Nat → Bool) (now : Nat) (w : World) (userID : Int)
    (setting value : String) (chatID : Int) : World :=
  match GetUserState fails now w userID with
  | (none, w1) => w1
  | (some userState, w1) =>
    match SaveUserState fails w1 (assignSetting userState setting value) with
    | (true, w2) => w2
    | (false, w2) => showSettingsMenu fails now w2 userID chatID

/-- The function handleClearSetting clears a user preference. -/
def handleClearSetting (fails : Nat → Bool) (now : Nat) (w : World) (userID : Int)
    (setting : String) (chatID : Int) : World :=
  match GetUserState fails now w userID with
  | (none, w1) => w1
  | (some userState, w1) =>
    match SaveUserState fails w1 (assignSetting userState setting "") with
    | (true, w2) => w2
    | (false, w2) => showSettingsMenu fails now w2 userID chatID

/-- The three tests of `checkCompatibility` on the two states it has read, in the order
of the source: gender, language, country. -/
def compatibleStates (user1State user2State : UserState) : Bool :=
  if user1State.Settings.Gender ≠ "" ∧ user2State.Settings.Gender ≠ "" ∧
      user1State.Settings.Gender ≠ user2State.Settings.Gender then false
  else if user1State.Settings.Language ≠ "" ∧ user2State.Settings.Language ≠ "" ∧
      user1State.Settings.Language ≠ user2State.Settings.Language then false
  else if user1State.Settings.Country ≠ "" ∧ user2State.Settings.Country ≠ "" ∧
      user1State.Settings.Country ≠ user2State.Settings.Country then false
  else true

/-- The function checkCompatibility checks if two users are compatible based on their
settings.  The result is the pair `(compatible, err != nil)`. -/
def checkCompatibility (fails : Nat → Bool) (now : Nat) (w : World) (user1 user2 : Int) :
    (Bool × Bool) × World :=
  match GetUserState fails now w user1 with
  | (none, w1) => ((false, true), w1)
  | (some user1State, w1) =>
    match GetUserState fails now w1 user2 with
    | (none, w2) => ((false, true), w2)
    | (some user2State, w2) => ((compatibleStates user1State user2State, false), w2)

/-- The notice of `startChat`. -/
def chatStartedText : String :=
  "Chat started! You can now send messages. Use /end to end the chat."

/-- The function startChat starts a chat between two users; the flag is `err != nil`. -/
def startChat (fails : Nat → Bool) (now : Nat) (w : World) (user1 user2 : Int) :
    Bool × World :=
  match GetUserState fails now w user1 with
  | (none, w1) => (true, w1)
  | (some user1State, w1) =>
    match GetUserState fails now w1 user2 with
    | (none, w2) => (true, w2)
    | (some user2State, w2) =>
      let user1State := { user1State with CurrentChat := user2, LastActivity := now }
      let user2State := { user2State with CurrentChat := user1, LastActivity := now }
      match SaveUserState fails w2 user1State with
      | (true, w3) => (true, w3)
      | (false, w3) =>
        match SaveUserState fails w3 user2State with
        | (true, w4) => (true, w4)
        | (false, w4) =>
          (false, (w4.queueText user1 chatStartedText).queueText user2 chatStartedText)

/-- The loop `for _, matchID := range potentialMatches` of `handleFindMatch`, followed by
the no-match notice. -/
def tryMatches (fails : Nat → Bool) (now : Nat) (userID chatID : Int) :
    List Int → World → World
  | [], w => w.queueText chatID "No matches found at the moment. Please try again later."
  | matchID :: rest, w =>
    match checkCompatibility fails now w userID matchID with
    | ((_, true), w1) => tryMatches fails now userID chatID rest w1
    | ((true, false), w1) =>
      (startChat fails now w1 userID matchID).2.queueText chatID
        "Match found! Starting chat..."
    | ((false, false), w1) => tryMatches fails now userID chatID rest w1

/-- The function handleFindMatch tries to find a chat match. -/
def handleFindMatch (fails : Nat → Bool) (shuffle : Nat → List Int → List Int) (now : Nat)
    (w : World) (userID chatID : Int) : World :=
  match GetUserState fails now w userID with
  | (none, w1) => w1
  | (some userState, w1) =>
    if !userState.IsActive then
      w1.queueText chatID "You need to be active to find a match!"
    else if userState.CurrentChat ≠ 0 then
      w1.queueText chatID "You are already in a chat!"
    else
      match FindPotentialMatches fails w1 userID with
      | (none, w2) => w2.queueText chatID "Error finding matches."
      | (some potentialMatches, w2) =>
        tryMatches fails now userID chatID (shuffle now potentialMatches) w2

/-- The function handleEndChat ends a chat between two users. -/
def handleEndChat (fails : Nat → Bool) (now : Nat) (w : World) (userID : Int) : World :=
  match GetUserState fails now w userID with
  | (none, w1) => w1
  | (some userState, w1) =>
    if userState.CurrentChat = 0 then w1.queueText userID "You are not in a chat!"
    else
      let partnerID := userState.CurrentChat
      match GetUserState fails now w1 partnerID with
      | (none, w2) => w2
      | (some partnerState, w2) =>
        let userState := { userState with CurrentChat := 0 }
        let partnerState := { partnerState with CurrentChat := 0 }
        let w3 := (SaveUserState fails w2 userState).2
        let w4 := (SaveUserState fails w3 partnerState).2
        (w4.queueText userID "Chat ended!").queueText partnerID
          "Your chat partner has ended the conversation."

/-- The part of `tgbotapi.Update` read by `HandleMessage`: `Message.From.ID`,
`Message.Chat.ID`, `Message.Text`, the file ids of `Message.Photo` (`[]` is the nil
slice; a slice that is not nil has an element) and `Message.Caption`. -/
structure Update where
  FromID : Int
  ChatID : Int
  Text : String
  Photo : List String
  Caption : String
  deriving DecidableEq

/-- HandleMessage processes regular messages. -/
def HandleMessage (fails : Nat → Bool) (now : Nat) (w : World) (update : Update) : World :=
  let userID := update.FromID
  let chatID := update.ChatID
  match GetUserState fails now w userID with
  | (none, w1) => w1
  | (some userState, w1) =>
    if userState.CurrentChat > 0 then
      let userState := { userState with LastActivity := now }
      let w2 := (SaveUserState fails w1 userState).2
      match update.Photo.getLast? with
      | some photoFileID =>
        let caption :=
          if update.Caption ≠ "" then "Anonymous: " ++ update.Caption
          else "Anonymous sent a photo"
        w2.queuePhoto userState.CurrentChat photoFileID caption
      | none => w2.queueText userState.CurrentChat ("Anonymous: " ++ update.Text)
    else showMainMenu fails now w1 userID chatID false

/-- The most recent activity of a chat: `LastActivity1`, or `LastActivity2` when it is
after `LastActivity1`. -/
def mostRecentActivity (chat : ActiveChat) : Nat :=
  if chat.LastActivity2 > chat.LastActivity1 then chat.LastActivity2
  else chat.LastActivity1

/-- The body of the loop `for _, chat := range activeChats` of
`checkAndEndInactiveChats`, for one chat. -/
def endInactiveChat (fails : Nat → Bool) (now : Nat) (w : World) (chat : ActiveChat) : World :=
  let lastActivity := mostRecentActivity chat
  if (now : Int) - (lastActivity : Int) > (InactivityTimeout : Int) then
    match GetUserState fails now w chat.User1ID with
    | (none, w1) => w1
    | (some user1State, w1) =>
      match GetUserState fails now w1 chat.User2ID with
      | (none, w2) => w2
      | (some user2State, w2) =>
        let user1State := { user1State with CurrentChat := 0 }
        let user2State := { user2State with CurrentChat := 0 }
        let w3 := (SaveUserState fails w2 user1State).2
        let w4 := (SaveUserState fails w3 user2State).2
        (w4.queueText chat.User1ID "Chat ended due to inactivity!").queueText
          chat.User2ID "Chat ended due to inactivity!"
  else w

/-- The function checkAndEndInactiveChats terminates chats that have been inactive for
too long; the flag is `err != nil`. -/
def checkAndEndInactiveChats (fails : Nat → Bool) (now : Nat) (w : World) : Bool × World :=
  match GetActiveChats fails w with
  | (none, w1) => (true, w1)
  | (some activeChats, w1) => (false, activeChats.foldl (endInactiveChat fails now) w1)

/-! ## Definitions used to state the properties -/

/-- The three-attribute soft-match rule, in the words of the specification: for each of
gender, language and country, at least one of the two values is empty or the two values
are equal. -/
def softMatch (a b : UserSettings) : Prop :=
  (a.Gender = "" ∨ b.Gender = "" ∨ a.Gender = b.Gender) ∧
  (a.Language = "" ∨ b.Language = "" ∨ a.Language = b.Language) ∧
  (a.Country = "" ∨ b.Country = "" ∨ a.Country = b.Country)

/-- A call that enqueues: `QueueTextMessage` or `QueuePhotoMessage` with its arguments. -/
inductive Enqueue where
  | Text (chatID : Int) (text : String)
  | Photo (chatID : Int) (photoFileID : String) (caption : String)
  deriving DecidableEq

/-- The queue after the call. -/
def Enqueue.run (mq : MessageQueue) : Enqueue → MessageQueue
  | Enqueue.Text chatID text => mq.QueueTextMessage chatID text
  | Enqueue.Photo chatID photoFileID caption => mq.QueuePhotoMessage chatID photoFileID caption

/-- The message that the call is asked to deliver. -/
def Enqueue.message : Enqueue → QueuedMessage
  | Enqueue.Text chatID text =>
    { ChatID := chatID, MsgType := MessageType.TextMessage, Text := text,
      PhotoFileID := "", Caption := "" }
  | Enqueue.Photo chatID photoFileID caption =>
    { ChatID := chatID, MsgType := MessageType.PhotoMessage, Text := "",
      PhotoFileID := photoFileID, Caption := caption }

/-- The results of `n` successive calls of `dequeue`, and the queue after them. -/
def dequeueN : Nat → MessageQueue → List (QueuedMessage × Bool) × MessageQueue
  | 0, mq => ([], mq)
  | n + 1, mq =>
    let r := mq.dequeue
    let rs := dequeueN n r.2
    (r.1 :: rs.1, rs.2)

/-- A text message for `chatID`, as it sits in the queue. -/
def textMessage (chatID : Int) (text : String) : QueuedMessage :=
  { ChatID := chatID, MsgType := MessageType.TextMessage, Text := text,
    PhotoFileID := "", Caption := "" }

/-! ## Sample worlds -/

/-- A table with five users: 1 and 2 are active and unpaired, 3 is inactive, 4 and 5 are
paired with each other. -/
def sampleRows : List UserRow :=
  [ { user_id := 1, is_active := true, current_chat := 0, last_activity := 1000,
      country := "", language := "", gender := "male" },
    { user_id := 2, is_active := true, current_chat := 0, last_activity := 1000,
      country := "ID", language := "english", gender := "" },
    { user_id := 3, is_active := false, current_chat := 0, last_activity := 1000,
      country := "", language := "", gender := "" },
    { user_id := 4, is_active := true, current_chat := 5, last_activity := 1000,
      country := "", language := "", gender := "" },
    { user_id := 5, is_active := true, current_chat := 4, last_activity := 1000,
      country := "", language := "", gender := "" } ]

/-- The world of `sampleRows` with an empty queue. -/
def sampleWorld : World :=
  { users := sampleRows, msgQueue := NewMessageQueue, sent := [], calls := 0 }

/-- The shuffle that leaves the candidates in the order of the table. -/
def keepOrder : Nat → List Int → List Int := fun _ l => l

/-- What `checkCompatibility(userID, candidate)` returns when its two reads succeed. -/
def compatibleWith (now : Nat) (rows : List UserRow) (userID candidate : Int) : Bool :=
  compatibleStates (stateOf now rows userID) (stateOf now rows candidate)

/-- What is known of `rand.Shuffle`: the slice it leaves is a permutation of the slice it
was given, whatever the seed. -/
def IsShuffle (shuffle : Nat → List Int → List Int) : Prop :=
  ∀ (seed : Nat) (l : List Int), (shuffle seed l).Perm l

/-- The field `CurrentChat` of the state that a successful `GetUserState` returns: the
column `current_chat` of the user's row, and 0 (no partner) when there is no row. -/
def partnerOf (rows : List UserRow) (userID : Int) : Int :=
  match lookup rows userID with
  | some r => r.current_chat
  | none => 0

/-- A world with two active unpaired users whose genders differ, and an inactive user. -/
def quietWorld : World :=
  { users :=
      [ { user_id := 1, is_active := true, current_chat := 0, last_activity := 1000,
          country := "", language := "", gender := "male" },
        { user_id := 7, is_active := true, current_chat := 0, last_activity := 1000,
          country := "", language := "", gender := "female" },
        { user_id := 3, is_active := false, current_chat := 0, last_activity := 1000,
          country := "", language := "", gender := "" } ]
    msgQueue := NewMessageQueue
    sent := []
    calls := 0 }

/-! ## The session state machine -/

/-- A partner map is symmetric: nobody is the partner of "no partner" (0), and whoever
has a partner is the partner of that partner. -/
def SymPartner (f : Int → Int) : Prop :=
  f 0 = 0 ∧ ∀ a, f a ≠ 0 → f (f a) = a

/-- The two users are each other's partner, or neither has a partner. -/
def GoodPair (f : Int → Int) (a b : Int) : Prop :=
  (f a = b ∧ f b = a) ∨ (f a = 0 ∧ f b = 0)

/-- The invariant of the table: the primary key holds, no row has the user id 0 (which
encodes "no partner"), and the partner map is symmetric. -/
def Inv (rows : List UserRow) : Prop :=
  PrimaryKey rows ∧ lookup rows 0 = none ∧ SymPartner (partnerOf rows)

/-- A handler operation, with its arguments. -/
inductive Op where
  | FindMatch (userID chatID : Int)
  | Message (update : Update)
  | EndChat (userID : Int)
  | Reap
  | ToggleActive (userID chatID : Int)
  | SetSetting (userID : Int) (setting value : String) (chatID : Int)
  | ClearSetting (userID : Int) (setting : String) (chatID : Int)

/-- The user on whose behalf the operation runs is a user: the id is not 0, the value
that encodes "no partner" in `current_chat`. -/
def Op.ForUser : Op → Prop
  | Op.FindMatch userID _ => userID ≠ 0
  | Op.Message update => update.FromID ≠ 0
  | Op.EndChat userID => userID ≠ 0
  | Op.Reap => True
  | Op.ToggleActive userID _ => userID ≠ 0
  | Op.SetSetting userID _ _ _ => userID ≠ 0
  | Op.ClearSetting userID _ _ => userID ≠ 0

/-- One handler operation, run to completion at the instant `e.1`. -/
def step (fails : Nat → Bool) (shuffle : Nat → List Int → List Int) (w : World)
    (e : Nat × Op) : World :=
  match e.2 with
  | Op.FindMatch userID chatID => handleFindMatch fails shuffle e.1 w userID chatID
  | Op.Message update => HandleMessage fails e.1 w update
  | Op.EndChat userID => handleEndChat fails e.1 w userID
  | Op.Reap => (checkAndEndInactiveChats fails e.1 w).2
  | Op.ToggleActive userID chatID => handleToggleActive fails e.1 w userID chatID
  | Op.SetSetting userID setting value chatID =>
    handleSetSetting fails e.1 w userID setting value chatID
  | Op.ClearSetting userID setting chatID =>
    handleClearSetting fails e.1 w userID setting chatID

/-- A finite sequence of handler operations applied one at a time. -/
def run (fails : Nat → Bool) (shuffle : Nat → List Int → List Int)
    (events : List (Nat × Op)) (w : World) : World :=
  events.foldl (step fails shuffle) w

/-- Three operations that make users 1 and 2 active and then let user 1 ask for a match. -/
def sampleEvents : List (Nat × Op) :=
  [(0, Op.ToggleActive 1 1), (0, Op.ToggleActive 2 2), (1000000000, Op.FindMatch 1 1)]

/-! ## Two concurrent calls of handleFindMatch

`Bot.Start` runs `go b.handleUpdate(update)` for every update, and the handlers take no
lock, so two calls of `handleFindMatch` interleave at their store calls.  A call is cut
here in two parts, which is coarser than the real interleaving: everything up to the point
where `startChat` is about to be called (`selectMatch`), and `startChat` with the
"Match found!" notice that follows it (`commitMatch`). -/

/-- The loop of `handleFindMatch` up to the call of `startChat`: `some matchID` when the
loop is about to call `startChat userID matchID`, `none` when it has ended with the
no-match notice. -/
def pickMatch (fails : Nat → Bool) (now : Nat) (userID chatID : Int) :
    List Int → World → Option Int × World
  | [], w =>
    (none, w.queueText chatID "No matches found at the moment. Please try again later.")
  | matchID :: rest, w =>
    match checkCompatibility fails now w userID matchID with
    | ((_, true), w1) => pickMatch fails now userID chatID rest w1
    | ((true, false), w1) => (some matchID, w1)
    | ((false, false), w1) => pickMatch fails now userID chatID rest w1

/-- The first part of `handleFindMatch`: the eligibility tests, the candidates, the shuffle
and the compatibility loop; `some matchID` when `startChat userID matchID` is the next
statement, `none` when the handler has returned. -/
def selectMatch (fails : Nat → Bool) (shuffle : Nat → List Int → List Int) (now : Nat)
    (w : World) (userID chatID : Int) : Option Int × World :=
  match GetUserState fails now w userID with
  | (none, w1) => (none, w1)
  | (some userState, w1) =>
    if !userState.IsActive then
      (none, w1.queueText chatID "You need to be active to find a match!")
    else if userState.CurrentChat ≠ 0 then
      (none, w1.queueText chatID "You are already in a chat!")
    else
      match FindPotentialMatches fails w1 userID with
      | (none, w2) => (none, w2.queueText chatID "Error finding matches.")
      | (some potentialMatches, w2) =>
        pickMatch fails now userID chatID (shuffle now potentialMatches) w2

/-- The second part of `handleFindMatch`: `startChat` and the notice to the requester. -/
def commitMatch (fails : Nat → Bool) (now : Nat) (w : World) (userID chatID matchID : Int) :
    World :=
  (startChat fails now w userID matchID).2.queueText chatID "Match found! Starting chat..."

/-- A call of `handleFindMatch` in progress. -/
inductive Thread where
  | Start (now : Nat) (userID chatID : Int)
  | Selected (now : Nat) (userID chatID matchID : Int)
  | Finished
  deriving DecidableEq

/-- The next part of a call. -/
def Thread.advance (fails : Nat → Bool) (shuffle : Nat → List Int → List Int) (w : World) :
    Thread → Thread × World
  | Thread.Start now userID chatID =>
    match selectMatch fails shuffle now w userID chatID with
    | (none, w1) => (Thread.Finished, w1)
    | (some matchID, w1) => (Thread.Selected now userID chatID matchID, w1)
  | Thread.Selected now userID chatID matchID =>
    (Thread.Finished, commitMatch fails now w userID chatID matchID)
  | Thread.Finished => (Thread.Finished, w)

/-- Two calls and the world they share. -/
structure Race where
  first : Thread
  second : Thread
  world : World
  deriving DecidableEq

/-- An interleaving of the two calls: at each `true` the first call runs its next part,
at each `false` the second. -/
def interleave (fails : Nat → Bool) (shuffle : Nat → List Int → List Int) :
    List Bool → Race → Race
  | [], r => r
  | true :: sched, r =>
    let s := r.first.advance fails shuffle r.world
    interleave fails shuffle sched { r with first := s.1, world := s.2 }
  | false :: sched, r =>
    let s := r.second.advance fails shuffle r.world
    interleave fails shuffle sched { r with second := s.1, world := s.2 }

/-- The property of the specification for two calls starting in `r` and a candidate: in
every interleaving that lets both calls finish, at most one requester ends paired with
the candidate and the table ends with only symmetric pairings. -/
def PairingIsAtomic (fails : Nat → Bool) (shuffle : Nat → List Int → List Int) (r : Race)
    (userA userB candidate : Int) : Prop :=
  ∀ sched : List Bool,
    (interleave fails shuffle sched r).first = Thread.Finished →
    (interleave fails shuffle sched r).second = Thread.Finished →
    ¬ (partnerOf (interleave fails shuffle sched r).world.users userA = candidate ∧
       partnerOf (interleave fails shuffle sched r).world.users userB = candidate) ∧
    ∀ x y : Int, x ≠ 0 → y ≠ 0 →
      (partnerOf (interleave fails shuffle sched r).world.users x = y ↔
       partnerOf (interleave fails shuffle sched r).world.users y = x)

/-- A world with three active unpaired users without settings: 8, 1 and 2. -/
def raceWorld : World :=
  { users :=
      [ { user_id := 8, is_active := true, current_chat := 0, last_activity := 1000,
          country := "", language := "", gender := "" },
        { user_id := 1, is_active := true, current_chat := 0, last_activity := 1000,
          country := "", language := "", gender := "" },
        { user_id := 2, is_active := true, current_chat := 0, last_activity := 1000,
          country := "", language := "", gender := "" } ]
    msgQueue := NewMessageQueue
    sent := []
    calls := 0 }

/-- Users 1 and 2 both ask for a match in `raceWorld`. -/
def raceStart : Race :=
  { first := Thread.Start 0 1 1, second := Thread.Start 0 2 2, world := raceWorld }

/-- The interleavings in which the two calls do not overlap: one call runs both its parts
before the other starts. -/
def Serial (sched : List Bool) : Prop :=
  sched = [true, true, false, false] ∨ sched = [false, false, true, true]

/-! ## The drain loop of the queue -/

/-- The function sendMessage sends a message based on its type: the value is handed to
`mq.bot.Send`; `sendErr` tells whether that call returns an error, which is only logged.
The flag of the result is whether an error was logged. -/
def sendMessage (sendErr : Bool) (w : World) (msg : QueuedMessage) : World × Bool :=
  match msg.MsgType with
  | MessageType.TextMessage =>
    (w.send (Chattable.Message msg.ChatID msg.Text []), sendErr)
  | MessageType.PhotoMessage =>
    let caption := if msg.Caption ≠ "" then msg.Caption else ""
    (w.send (Chattable.Photo msg.ChatID msg.PhotoFileID caption), sendErr)

/-- One tick of the rate limiter in `processQueue`: `dequeue`, and `sendMessage` when
the queue was not empty. -/
def processQueueTick (sendErr : Bool) (w : World) : World :=
  let r := w.msgQueue.dequeue
  let w1 : World := { w with msgQueue := r.2 }
  if !r.1.2 then w1 else (sendMessage sendErr w1 r.1.1).1

/-- The period of the ticker of `processQueue`, `time.Second / config.MessageRateLimit`:
a `time.Duration`, which is a whole number of nanoseconds. -/
def tickerPeriod : Nat := Second / MessageRateLimit

/-- The number of sends that fall in the window of length `len` nanoseconds starting at
the instant `start`, when the queue is never empty: the ticks `k = 1, 2, ...` with
`start ≤ k * tickerPeriod ≤ start + len`, one send per tick. -/
def sendsInWindow (start len : Nat) : Nat :=
  ((Finset.range (start + len + 1)).filter
    (fun k => 1 ≤ k ∧ start ≤ k * tickerPeriod ∧ k * tickerPeriod ≤ start + len)).card

/-- The store whose call number `n` returns an error, all others succeeding. -/
def failAt (n : Nat) : Nat → Bool := fun k => decide (k = n)

/-! ## The inactivity sweep -/

/-- The test `now.Sub(lastActivity) > config.InactivityTimeout` of
`checkAndEndInactiveChats` for one chat. -/
def timedOut (now : Nat) (chat : ActiveChat) : Prop :=
  (now : Int) - (mostRecentActivity chat : Int) > (InactivityTimeout : Int)

instance (now : Nat) (chat : ActiveChat) : Decidable (timedOut now chat) := by
  unfold timedOut; infer_instance

/-- The notice of the sweep for one user. -/
def inactivityNotice (userID : Int) : QueuedMessage :=
  textMessage userID "Chat ended due to inactivity!"

/-- The notices of a sweep over the given chats: two for every chat that timed out. -/
def reapNotices (now : Nat) (chats : List ActiveChat) : List QueuedMessage :=
  chats.flatMap (fun chat =>
    if timedOut now chat then [inactivityNotice chat.User1ID, inactivityNotice chat.User2ID]
    else [])

/-- The row of the query of `GetActiveChats` for the rows `u1` and `u2`. -/
def chatOf (u1 u2 : UserRow) : ActiveChat :=
  { User1ID := u1.user_id
    User2ID := u2.user_id
    LastActivity1 := parseRFC3339 u1.last_activity
    LastActivity2 := parseRFC3339 u2.last_activity }

/-! # Properties -/

/-! ## The store -/

@[simp] theorem GetUserState_noFail (now : Nat) (w : World) (userID : Int) :
    GetUserState noFail now w userID
      = (some (stateOf now w.users userID), { w with calls := w.calls + 1 }) := by
  simp [GetUserState, noFail]

@[simp] theorem SaveUserState_noFail (w : World) (state : UserState) :
    SaveUserState noFail w state
      = (false, { w with users := upsert w.users (stateToRow state), calls := w.calls + 1 }) := by
  simp [SaveUserState, noFail]

@[simp] theorem FindPotentialMatches_noFail (w : World) (userID : Int) :
    FindPotentialMatches noFail w userID
      = (some (potentialMatches w.users userID), { w with calls := w.calls + 1 }) := by
  simp [FindPotentialMatches, noFail]

@[simp] theorem GetActiveChats_noFail (w : World) :
    GetActiveChats noFail w = (some (activeChats w.users), { w with calls := w.calls + 1 }) := by
  simp [GetActiveChats, noFail]

/-! ## The outbound queue -/

theorem dequeueN_append (msgs : List QueuedMessage) (running : Bool) :
    (dequeueN (msgs.length + 1) { queue := msgs, running := running }).1
      = msgs.map (fun m => (m, true)) ++ [(QueuedMessage.zero, false)] := by
  induction msgs with
  | nil => simp [dequeueN, MessageQueue.dequeue]
  | cons m ms ih => simpa [dequeueN, MessageQueue.dequeue] using ih

theorem foldl_run_queue (ops : List Enqueue) (mq : MessageQueue) :
    ops.foldl Enqueue.run mq
      = { queue := mq.queue ++ ops.map Enqueue.message, running := mq.running } := by
  induction ops generalizing mq with
  | nil => simp
  | cons o os ih =>
    cases o <;>
      simp [ih, Enqueue.run, Enqueue.message, MessageQueue.QueueTextMessage,
        MessageQueue.QueuePhotoMessage]

/-- C3. The outbound queue is FIFO: after the calls `ops` (any mix of `QueueTextMessage`
and `QueuePhotoMessage`) on an empty queue, with no dequeue in between, the next
`ops.length` calls of `dequeue` return the messages of `ops` in order, each with
`ok = true`, and the call after them returns `ok = false`. -/
theorem queue_fifo (running : Bool) (ops : List Enqueue) :
    (dequeueN (ops.length + 1) (ops.foldl Enqueue.run { queue := [], running := running })).1
      = ops.map (fun o => (o.message, true)) ++ [(QueuedMessage.zero, false)] := by
  rw [foldl_run_queue]
  have h := dequeueN_append (ops.map Enqueue.message) running
  simpa [List.map_map, Function.comp] using h

/-! ## Compatibility -/

theorem compatibleStates_comm (a b : UserState) :
    compatibleStates a b = compatibleStates b a := by
  unfold compatibleStates
  by_cases hg : a.Settings.Gender = b.Settings.Gender <;>
  by_cases hl : a.Settings.Language = b.Settings.Language <;>
  by_cases hc : a.Settings.Country = b.Settings.Country <;>
  simp [hg, hl, hc, eq_comm, and_comm]

/-- C4. The compatibility predicate is symmetric: whatever the settings of the two users
(rows with any values, or no row at all), `checkCompatibility(A, B)` returns what
`checkCompatibility(B, A)` returns. -/
theorem checkCompatibility_symmetric (fails : Nat → Bool) (now : Nat) (w : World)
    (userA userB : Int) :
    (checkCompatibility fails now w userA userB).1
      = (checkCompatibility fails now w userB userA).1 := by
  unfold checkCompatibility GetUserState
  by_cases h1 : fails w.calls = true
  · simp [h1]
  · by_cases h2 : fails (w.calls + 1) = true
    · simp [h1, h2]
    · simp [h1, h2, compatibleStates_comm (stateOf now w.users userA)]

theorem compatibleStates_iff_softMatch (a b : UserState) :
    compatibleStates a b = true ↔ softMatch a.Settings b.Settings := by
  unfold compatibleStates softMatch
  by_cases hg : a.Settings.Gender = b.Settings.Gender <;>
  by_cases hl : a.Settings.Language = b.Settings.Language <;>
  by_cases hc : a.Settings.Country = b.Settings.Country <;>
  by_cases hg1 : a.Settings.Gender = "" <;>
  by_cases hg2 : b.Settings.Gender = "" <;>
  by_cases hl1 : a.Settings.Language = "" <;>
  by_cases hl2 : b.Settings.Language = "" <;>
  by_cases hc1 : a.Settings.Country = "" <;>
  by_cases hc2 : b.Settings.Country = "" <;>
  simp [hg, hl, hc, hg1, hg2, hl1, hl2, hc1, hc2]

/-- C5. When the two records can be read, `checkCompatibility` returns no error and
returns true exactly when the soft-match rule holds of the two users' settings; in
particular a user whose only setting is the gender "male" is compatible with any user
whose gender is empty, whatever that user's language and country are. -/
theorem checkCompatibility_softMatch (fails : Nat → Bool) (now : Nat) (w : World)
    (userA userB : Int) (hA : fails w.calls = false) (hB : fails (w.calls + 1) = false) :
    (checkCompatibility fails now w userA userB).1.2 = false ∧
    ((checkCompatibility fails now w userA userB).1.1 = true ↔
      softMatch (stateOf now w.users userA).Settings (stateOf now w.users userB).Settings) ∧
    ((stateOf now w.users userA).Settings = { Country := "", Language := "", Gender := "male" } →
      (stateOf now w.users userB).Settings.Gender = "" →
      (checkCompatibility fails now w userA userB).1.1 = true) := by
  have hval : (checkCompatibility fails now w userA userB).1
      = (compatibleStates (stateOf now w.users userA) (stateOf now w.users userB), false) := by
    simp [checkCompatibility, GetUserState, hA, hB]
  refine ⟨by rw [hval], by rw [hval]; exact compatibleStates_iff_softMatch _ _, ?_⟩
  intro hset hgender
  rw [hval]
  simp [compatibleStates, hset, hgender]

theorem checkCompatibility_softMatch_witness :
    noFail sampleWorld.calls = false ∧ noFail (sampleWorld.calls + 1) = false ∧
    (checkCompatibility noFail 0 sampleWorld 1 2).1.1 = true :=
  ⟨rfl, rfl, (checkCompatibility_softMatch noFail 0 sampleWorld 1 2 rfl rfl).2.2
    (by decide) (by decide)⟩

/-! ## handleFindMatch -/

/-- C6. An ineligible requester is rejected without a match being attempted: when the
requester's record is read and shows a user who is not active, `handleFindMatch` enqueues
the single notice "You need to be active to find a match!" for the requester's chat;
when it shows an active user whose partner is set, it enqueues the single notice
"You are already in a chat!"; in both cases the only store call made is that read (no
candidate is looked up) and the table is unchanged. -/
theorem handleFindMatch_ineligible (fails : Nat → Bool) (shuffle : Nat → List Int → List Int)
    (now : Nat) (w : World) (userID chatID : Int) (hread : fails w.calls = false) :
    ((stateOf now w.users userID).IsActive = false →
      handleFindMatch fails shuffle now w userID chatID
        = { w with
            msgQueue := { w.msgQueue with
              queue := w.msgQueue.queue ++
                [textMessage chatID "You need to be active to find a match!"] }
            calls := w.calls + 1 }) ∧
    ((stateOf now w.users userID).IsActive = true →
      (stateOf now w.users userID).CurrentChat ≠ 0 →
      handleFindMatch fails shuffle now w userID chatID
        = { w with
            msgQueue := { w.msgQueue with
              queue := w.msgQueue.queue ++ [textMessage chatID "You are already in a chat!"] }
            calls := w.calls + 1 }) := by
  constructor
  · intro hact
    simp [handleFindMatch, GetUserState, hread, hact, World.queueText,
      MessageQueue.QueueTextMessage, textMessage]
  · intro hact hchat
    simp [handleFindMatch, GetUserState, hread, hact, hchat, World.queueText,
      MessageQueue.QueueTextMessage, textMessage]

theorem handleFindMatch_ineligible_witness :
    noFail sampleWorld.calls = false ∧
    (stateOf 0 sampleWorld.users 3).IsActive = false ∧
    handleFindMatch noFail keepOrder 0 sampleWorld 3 3
      = { sampleWorld with
          msgQueue := { sampleWorld.msgQueue with
            queue := sampleWorld.msgQueue.queue ++
              [textMessage 3 "You need to be active to find a match!"] }
          calls := sampleWorld.calls + 1 } :=
  ⟨rfl, by decide,
    (handleFindMatch_ineligible noFail keepOrder 0 sampleWorld 3 3 rfl).1 (by decide)⟩

/-! ## Lemmas on the table -/

theorem lookup_upsert (rows : List UserRow) (r : UserRow) (userID : Int) :
    lookup (upsert rows r) userID
      = if r.user_id = userID then some r else lookup rows userID := by
  induction rows with
  | nil => by_cases hr : r.user_id = userID <;> simp [upsert, lookup, List.find?, hr]
  | cons x xs ih =>
    unfold lookup at ih ⊢
    by_cases hx : x.user_id = r.user_id
    · by_cases hr : r.user_id = userID
      · simp [upsert, hx, hr, List.find?]
      · simp [upsert, hx, hr, List.find?]
    · by_cases hxu : x.user_id = userID
      · have hr : ¬ r.user_id = userID := fun h => hx (hxu.trans h.symm)
        have hr2 : ¬ userID = r.user_id := fun h => hr h.symm
        simp [upsert, hxu, hr, hr2, List.find?]
      · simp [upsert, hx, hxu, List.find?, ih]

theorem lookup_some_mem {rows : List UserRow} {userID : Int} {r : UserRow}
    (h : lookup rows userID = some r) : r ∈ rows ∧ r.user_id = userID := by
  unfold lookup at h
  exact ⟨List.mem_of_find?_eq_some h, by simpa using List.find?_some h⟩

theorem lookup_of_mem {rows : List UserRow} (hpk : PrimaryKey rows) {r : UserRow}
    (h : r ∈ rows) : lookup rows r.user_id = some r := by
  induction rows with
  | nil => simp at h
  | cons x xs ih =>
    unfold PrimaryKey at hpk
    simp only [List.map_cons, List.nodup_cons, List.mem_map, not_exists, not_and] at hpk
    rcases List.mem_cons.mp h with rfl | hmem
    · simp [lookup, List.find?]
    · have hne : ¬ x.user_id = r.user_id := fun e => hpk.1 r hmem e.symm
      have := ih hpk.2 hmem
      unfold lookup at this ⊢
      simp [List.find?, hne, this]

theorem mem_keys_upsert (rows : List UserRow) (r : UserRow) (k : Int) :
    k ∈ (upsert rows r).map (fun x => x.user_id)
      ↔ k ∈ rows.map (fun x => x.user_id) ∨ k = r.user_id := by
  induction rows with
  | nil => simp [upsert]
  | cons x xs ih =>
    by_cases hx : x.user_id = r.user_id
    · simp only [upsert, hx, if_true, List.map_cons, List.mem_cons]
      tauto
    · simp only [upsert, hx, if_false, List.map_cons, List.mem_cons, ih]
      tauto

theorem PrimaryKey_upsert {rows : List UserRow} (hpk : PrimaryKey rows) (r : UserRow) :
    PrimaryKey (upsert rows r) := by
  induction rows with
  | nil => simp [upsert, PrimaryKey]
  | cons x xs ih =>
    unfold PrimaryKey at hpk ih ⊢
    rw [List.map_cons, List.nodup_cons] at hpk
    by_cases hx : x.user_id = r.user_id
    · simp only [upsert, hx, if_true, List.map_cons, List.nodup_cons]
      exact ⟨hx ▸ hpk.1, hpk.2⟩
    · simp only [upsert, hx, if_false, List.map_cons, List.nodup_cons]
      refine ⟨?_, ih hpk.2⟩
      rw [mem_keys_upsert]
      rintro (h | h)
      · exact hpk.1 h
      · exact hx h

theorem mem_potentialMatches {rows : List UserRow} {userID m : Int} :
    m ∈ potentialMatches rows userID
      ↔ ∃ r ∈ rows, r.user_id = m ∧ r.is_active = true ∧ r.current_chat = 0 ∧ m ≠ userID := by
  unfold potentialMatches
  simp only [List.mem_map, List.mem_filter, Bool.and_eq_true, decide_eq_true_eq]
  constructor
  · rintro ⟨r, ⟨hr, ⟨ha, hc⟩, hn⟩, rfl⟩
    exact ⟨r, hr, rfl, ha, hc, hn⟩
  · rintro ⟨r, hr, rfl, ha, hc, hn⟩
    exact ⟨r, ⟨hr, ⟨ha, hc⟩, hn⟩, rfl⟩

/-- The candidates are exactly the users with a row that is active and unpaired, the
requester excluded. -/
theorem mem_potentialMatches_lookup {rows : List UserRow} (hpk : PrimaryKey rows)
    {userID m : Int} :
    m ∈ potentialMatches rows userID
      ↔ ∃ r, lookup rows m = some r ∧ r.is_active = true ∧ r.current_chat = 0 ∧ m ≠ userID := by
  rw [mem_potentialMatches]
  constructor
  · rintro ⟨r, hr, rfl, ha, hc, hn⟩
    exact ⟨r, lookup_of_mem hpk hr, ha, hc, hn⟩
  · rintro ⟨r, hr, ha, hc, hn⟩
    exact ⟨r, (lookup_some_mem hr).1, (lookup_some_mem hr).2, ha, hc, hn⟩

/-! ## The handlers on a store that does not fail -/

theorem checkCompatibility_noFail (now : Nat) (w : World) (user1 user2 : Int) :
    checkCompatibility noFail now w user1 user2
      = ((compatibleWith now w.users user1 user2, false), { w with calls := w.calls + 2 }) := by
  simp [checkCompatibility, compatibleWith]

theorem startChat_noFail (now : Nat) (w : World) (user1 user2 : Int) :
    startChat noFail now w user1 user2
      = (false,
          { users :=
              upsert
                (upsert w.users
                  (stateToRow { stateOf now w.users user1 with
                    CurrentChat := user2, LastActivity := now }))
                (stateToRow { stateOf now w.users user2 with
                  CurrentChat := user1, LastActivity := now })
            msgQueue :=
              { w.msgQueue with
                queue := w.msgQueue.queue ++
                  [textMessage user1 chatStartedText, textMessage user2 chatStartedText] }
            sent := w.sent
            calls := w.calls + 4 }) := by
  simp [startChat, World.queueText, MessageQueue.QueueTextMessage, textMessage]

theorem tryMatches_noFail_none (now : Nat) (userID chatID : Int) (l : List Int) (w : World)
    (hnone : ∀ x ∈ l, compatibleWith now w.users userID x = false) :
    tryMatches noFail now userID chatID l w
      = { w with
          msgQueue := { w.msgQueue with
            queue := w.msgQueue.queue ++
              [textMessage chatID "No matches found at the moment. Please try again later."] }
          calls := w.calls + 2 * l.length } := by
  induction l generalizing w with
  | nil => simp [tryMatches, World.queueText, MessageQueue.QueueTextMessage, textMessage]
  | cons x xs ih =>
    have hx := hnone x (List.mem_cons_self _ _)
    have hxs : ∀ y ∈ xs, compatibleWith now w.users userID y = false :=
      fun y hy => hnone y (List.mem_cons_of_mem _ hy)
    rw [tryMatches, checkCompatibility_noFail, hx]
    simp only []
    rw [ih { w with calls := w.calls + 2 } hxs]
    simp only [List.length_cons, World.mk.injEq, true_and]
    omega

theorem tryMatches_noFail_some (now : Nat) (userID chatID : Int) (pre : List Int) (c : Int)
    (post : List Int) (w : World)
    (hpre : ∀ x ∈ pre, compatibleWith now w.users userID x = false)
    (hc : compatibleWith now w.users userID c = true) :
    tryMatches noFail now userID chatID (pre ++ c :: post) w
      = (startChat noFail now { w with calls := w.calls + 2 * (pre.length + 1) }
          userID c).2.queueText chatID "Match found! Starting chat..." := by
  induction pre generalizing w with
  | nil =>
    rw [List.nil_append, tryMatches, checkCompatibility_noFail, hc]
    simp
  | cons x xs ih =>
    have hx := hpre x (List.mem_cons_self _ _)
    have hxs : ∀ y ∈ xs, compatibleWith now w.users userID y = false :=
      fun y hy => hpre y (List.mem_cons_of_mem _ hy)
    rw [List.cons_append, tryMatches, checkCompatibility_noFail, hx]
    simp only []
    rw [ih { w with calls := w.calls + 2 } hxs hc]
    have : w.calls + 2 + 2 * (xs.length + 1) = w.calls + 2 * ((x :: xs).length + 1) := by
      simp only [List.length_cons]; omega
    simp only [this]

theorem keepOrder_isShuffle : IsShuffle keepOrder :=
  fun _ l => List.Perm.refl l

theorem handleFindMatch_noFail_eligible (shuffle : Nat → List Int → List Int) (now : Nat)
    (w : World) (userID chatID : Int)
    (hact : (stateOf now w.users userID).IsActive = true)
    (hchat : (stateOf now w.users userID).CurrentChat = 0) :
    handleFindMatch noFail shuffle now w userID chatID
      = tryMatches noFail now userID chatID (shuffle now (potentialMatches w.users userID))
          { w with calls := w.calls + 2 } := by
  simp [handleFindMatch, hact, hchat]

/-- The world after `handleFindMatch`, for a requester who is active and unpaired and a
shuffled candidate list whose first compatible element is `c`. -/
theorem handleFindMatch_noFail_select (shuffle : Nat → List Int → List Int) (now : Nat)
    (w : World) (userID chatID : Int) (pre : List Int) (c : Int) (post : List Int)
    (hact : (stateOf now w.users userID).IsActive = true)
    (hchat : (stateOf now w.users userID).CurrentChat = 0)
    (horder : shuffle now (potentialMatches w.users userID) = pre ++ c :: post)
    (hpre : ∀ x ∈ pre, compatibleWith now w.users userID x = false)
    (hc : compatibleWith now w.users userID c = true) :
    handleFindMatch noFail shuffle now w userID chatID
      = { users :=
            upsert
              (upsert w.users
                (stateToRow { stateOf now w.users userID with
                  CurrentChat := c, LastActivity := now }))
              (stateToRow { stateOf now w.users c with
                CurrentChat := userID, LastActivity := now })
          msgQueue :=
            { w.msgQueue with
              queue := w.msgQueue.queue ++
                [textMessage userID chatStartedText, textMessage c chatStartedText,
                 textMessage chatID "Match found! Starting chat..."] }
          sent := w.sent
          calls := w.calls + 2 + 2 * (pre.length + 1) + 4 } := by
  rw [handleFindMatch_noFail_eligible shuffle now w userID chatID hact hchat, horder,
    tryMatches_noFail_some now userID chatID pre c post { w with calls := w.calls + 2 } hpre hc,
    startChat_noFail]
  simp [World.queueText, MessageQueue.QueueTextMessage, textMessage]

theorem stateOf_of_lookup {now : Nat} {rows : List UserRow} {userID : Int} {r : UserRow}
    (h : lookup rows userID = some r) : stateOf now rows userID = rowToState userID r := by
  simp [stateOf, h]

theorem stateToRow_rowToState_with {rows : List UserRow} {userID : Int} {r : UserRow}
    (h : lookup rows userID = some r) (partner : Int) (now : Nat) :
    stateToRow { rowToState userID r with CurrentChat := partner, LastActivity := now }
      = { r with current_chat := partner, last_activity := formatRFC3339 now } := by
  have hid := (lookup_some_mem h).2
  cases r
  simp_all [stateToRow, rowToState]

/-- C7. A successful `handleFindMatch` pairs both sides: for a requester `U` whose row is
active and unpaired, and `C` the first compatible element of the shuffled candidate list,
on a store that does not fail the table afterwards has `U.current_chat = C` and
`C.current_chat = U`, both `last_activity` are the instant of the call (at the one-second
resolution of the column), every other field of the two rows and every other user's row
is unchanged, and the queue has received, in this order, the "Chat started!" notice once
for `U`, once for `C`, and then the "Match found!" notice for the requester's chat. -/
theorem handleFindMatch_pairs (shuffle : Nat → List Int → List Int) (now : Nat) (w : World)
    (U chatID : Int) (ru : UserRow) (pre : List Int) (C : Int) (post : List Int)
    (hpk : PrimaryKey w.users) (hshuffle : IsShuffle shuffle)
    (hU : lookup w.users U = some ru) (hact : ru.is_active = true)
    (hchat : ru.current_chat = 0)
    (horder : shuffle now (potentialMatches w.users U) = pre ++ C :: post)
    (hpre : ∀ x ∈ pre, compatibleWith now w.users U x = false)
    (hC : compatibleWith now w.users U C = true) :
    ∃ rc, lookup w.users C = some rc ∧
      lookup (handleFindMatch noFail shuffle now w U chatID).users U
        = some { ru with current_chat := C, last_activity := formatRFC3339 now } ∧
      lookup (handleFindMatch noFail shuffle now w U chatID).users C
        = some { rc with current_chat := U, last_activity := formatRFC3339 now } ∧
      (∀ x, x ≠ U → x ≠ C →
        lookup (handleFindMatch noFail shuffle now w U chatID).users x = lookup w.users x) ∧
      (handleFindMatch noFail shuffle now w U chatID).msgQueue.queue
        = w.msgQueue.queue ++
            [textMessage U chatStartedText, textMessage C chatStartedText,
             textMessage chatID "Match found! Starting chat..."] := by
  have hmem : C ∈ potentialMatches w.users U := by
    have : C ∈ shuffle now (potentialMatches w.users U) := by rw [horder]; simp
    exact (hshuffle now _).subset this
  obtain ⟨rc, hrc, -, -, hne⟩ := (mem_potentialMatches_lookup hpk).mp hmem
  have hsU : stateOf now w.users U = rowToState U ru := stateOf_of_lookup hU
  have hsC : stateOf now w.users C = rowToState C rc := stateOf_of_lookup hrc
  have hwhole := handleFindMatch_noFail_select shuffle now w U chatID pre C post
    (by rw [hsU]; exact hact) (by rw [hsU]; exact hchat) horder hpre hC
  rw [hsU, hsC, stateToRow_rowToState_with hU, stateToRow_rowToState_with hrc] at hwhole
  have hidU := (lookup_some_mem hU).2
  have hidC := (lookup_some_mem hrc).2
  refine ⟨rc, hrc, ?_, ?_, ?_, ?_⟩
  · rw [hwhole]
    simp only [lookup_upsert, hidU, hidC]
    simp [hne]
  · rw [hwhole]
    simp only [lookup_upsert, hidU, hidC]
    simp
  · intro x hxU hxC
    rw [hwhole]
    simp only [lookup_upsert, hidU, hidC]
    simp [Ne.symm hxU, Ne.symm hxC]
  · rw [hwhole]

theorem handleFindMatch_pairs_witness :
    lookup (handleFindMatch noFail keepOrder 5000000000 sampleWorld 1 1).users 1
      = some { user_id := 1, is_active := true, current_chat := 2, last_activity := 5,
               country := "", language := "", gender := "male" } := by
  obtain ⟨rc, -, h, -⟩ := handleFindMatch_pairs keepOrder 5000000000 sampleWorld 1 1
    { user_id := 1, is_active := true, current_chat := 0, last_activity := 1000,
      country := "", language := "", gender := "male" } [] 2 []
    (by decide) keepOrder_isShuffle (by decide) rfl rfl (by decide) (by simp) (by decide)
  simpa [formatRFC3339, Second] using h

theorem stateOf_CurrentChat (now : Nat) (rows : List UserRow) (userID : Int) :
    (stateOf now rows userID).CurrentChat = partnerOf rows userID := by
  unfold stateOf partnerOf
  cases lookup rows userID <;> simp [NewUserState, rowToState]

theorem partnerOf_upsert (rows : List UserRow) (r : UserRow) (userID : Int) :
    partnerOf (upsert rows r) userID
      = if r.user_id = userID then r.current_chat else partnerOf rows userID := by
  unfold partnerOf
  rw [lookup_upsert]
  by_cases h : r.user_id = userID <;> simp [h]

theorem stateToRow_user_id (s : UserState) : (stateToRow s).user_id = s.UserID := rfl

theorem stateToRow_current_chat (s : UserState) : (stateToRow s).current_chat = s.CurrentChat :=
  rfl

theorem stateOf_UserID (now : Nat) (rows : List UserRow) (userID : Int) :
    (stateOf now rows userID).UserID = userID := by
  unfold stateOf
  cases lookup rows userID <;> simp [NewUserState, rowToState]

/-- C8. The partner chosen by `handleFindMatch` is the first candidate, in the shuffled
order, that passes the compatibility test: the candidate list is exactly the users whose
row is active and has no partner, the requester excluded; for every active unpaired
requester `U`, every shuffle and every split `pre ++ C :: post` of the shuffled list with
`C` compatible and no element of `pre` compatible, after the call `U` and `C` are each
other's partner, and `C` is not `U`, is active and was unpaired. -/
theorem handleFindMatch_first_compatible (shuffle : Nat → List Int → List Int) (now : Nat)
    (w : World) (U chatID : Int) (hpk : PrimaryKey w.users) (hshuffle : IsShuffle shuffle)
    (hact : (stateOf now w.users U).IsActive = true)
    (hchat : (stateOf now w.users U).CurrentChat = 0) :
    (∀ c, c ∈ potentialMatches w.users U ↔
      ∃ r, lookup w.users c = some r ∧ r.is_active = true ∧ r.current_chat = 0 ∧ c ≠ U) ∧
    (∀ (pre : List Int) (C : Int) (post : List Int),
      shuffle now (potentialMatches w.users U) = pre ++ C :: post →
      (∀ x ∈ pre, compatibleWith now w.users U x = false) →
      compatibleWith now w.users U C = true →
      partnerOf (handleFindMatch noFail shuffle now w U chatID).users U = C ∧
      partnerOf (handleFindMatch noFail shuffle now w U chatID).users C = U ∧
      C ≠ U ∧
      ∃ rc, lookup w.users C = some rc ∧ rc.is_active = true ∧ rc.current_chat = 0) := by
  refine ⟨fun c => mem_potentialMatches_lookup hpk, ?_⟩
  intro pre C post horder hpre hC
  have hmem : C ∈ potentialMatches w.users U := by
    have : C ∈ shuffle now (potentialMatches w.users U) := by rw [horder]; simp
    exact (hshuffle now _).subset this
  obtain ⟨rc, hrc, hrcact, hrcchat, hne⟩ := (mem_potentialMatches_lookup hpk).mp hmem
  have hwhole := handleFindMatch_noFail_select shuffle now w U chatID pre C post
    hact hchat horder hpre hC
  refine ⟨?_, ?_, hne, rc, hrc, hrcact, hrcchat⟩
  · rw [hwhole]
    simp only [partnerOf_upsert, stateToRow_user_id, stateToRow_current_chat, stateOf_UserID]
    simp [hne]
  · rw [hwhole]
    simp only [partnerOf_upsert, stateToRow_user_id, stateToRow_current_chat, stateOf_UserID]
    simp

theorem handleFindMatch_first_compatible_witness :
    partnerOf (handleFindMatch noFail keepOrder 5000000000 sampleWorld 1 1).users 1 = 2 ∧
    partnerOf (handleFindMatch noFail keepOrder 5000000000 sampleWorld 1 1).users 2 = 1 :=
  have h := (handleFindMatch_first_compatible keepOrder 5000000000 sampleWorld 1 1
    (by decide) keepOrder_isShuffle (by decide) (by decide)).2 [] 2 [] rfl (by simp) (by decide)
  ⟨h.1, h.2.1⟩

/-- C9. When no match is available the table is untouched: for a requester who is active
and unpaired and with whom no other active unpaired user is compatible (in particular
when there is no other active unpaired user), `handleFindMatch` on a store that does not
fail enqueues exactly one message, the no-match notice for the requester's chat, and the
table after the call is the table before it. -/
theorem handleFindMatch_no_match (shuffle : Nat → List Int → List Int) (now : Nat) (w : World)
    (U chatID : Int) (hshuffle : IsShuffle shuffle)
    (hact : (stateOf now w.users U).IsActive = true)
    (hchat : (stateOf now w.users U).CurrentChat = 0)
    (hnone : ∀ r ∈ w.users, r.is_active = true → r.current_chat = 0 → r.user_id ≠ U →
      compatibleWith now w.users U r.user_id = false) :
    (handleFindMatch noFail shuffle now w U chatID).users = w.users ∧
    (handleFindMatch noFail shuffle now w U chatID).msgQueue.queue
      = w.msgQueue.queue ++
          [textMessage chatID "No matches found at the moment. Please try again later."] ∧
    (handleFindMatch noFail shuffle now w U chatID).sent = w.sent := by
  have hall : ∀ x ∈ shuffle now (potentialMatches w.users U),
      compatibleWith now w.users U x = false := by
    intro x hx
    obtain ⟨r, hr, rfl, ha, hc, hn⟩ := mem_potentialMatches.mp ((hshuffle now _).subset hx)
    exact hnone r hr ha hc hn
  rw [handleFindMatch_noFail_eligible shuffle now w U chatID hact hchat,
    tryMatches_noFail_none now U chatID _ { w with calls := w.calls + 2 } hall]
  simp

theorem handleFindMatch_no_match_witness :
    (handleFindMatch noFail keepOrder 0 quietWorld 1 1).users = quietWorld.users ∧
    (handleFindMatch noFail keepOrder 0 quietWorld 1 1).msgQueue.queue
      = quietWorld.msgQueue.queue ++
          [textMessage 1 "No matches found at the moment. Please try again later."] ∧
    (handleFindMatch noFail keepOrder 0 quietWorld 1 1).sent = quietWorld.sent :=
  handleFindMatch_no_match keepOrder 0 quietWorld 1 1 keepOrder_isShuffle (by decide)
    (by decide) (by decide)

/-! ## handleEndChat -/

theorem formatRFC3339_parseRFC3339 (s : Nat) : formatRFC3339 (parseRFC3339 s) = s := by
  unfold formatRFC3339 parseRFC3339 Second
  exact Nat.mul_div_cancel s (by decide)

theorem stateToRow_rowToState_clear {rows : List UserRow} {userID : Int} {r : UserRow}
    (h : lookup rows userID = some r) :
    stateToRow { rowToState userID r with CurrentChat := 0 } = { r with current_chat := 0 } := by
  have hid := (lookup_some_mem h).2
  cases r
  simp_all [stateToRow, rowToState, formatRFC3339_parseRFC3339]

theorem handleEndChat_noFail_paired (now : Nat) (w : World) (userID : Int)
    (hchat : (stateOf now w.users userID).CurrentChat ≠ 0) :
    handleEndChat noFail now w userID
      = { users :=
            upsert
              (upsert w.users
                (stateToRow { stateOf now w.users userID with CurrentChat := 0 }))
              (stateToRow { stateOf now w.users (stateOf now w.users userID).CurrentChat with
                CurrentChat := 0 })
          msgQueue :=
            { w.msgQueue with
              queue := w.msgQueue.queue ++
                [textMessage userID "Chat ended!",
                 textMessage (stateOf now w.users userID).CurrentChat
                   "Your chat partner has ended the conversation."] }
          sent := w.sent
          calls := w.calls + 4 } := by
  simp [handleEndChat, hchat, World.queueText, MessageQueue.QueueTextMessage, textMessage]

/-- C10. The function `handleEndChat` clears both sides and notifies each: for users `A`
and `B` with rows in the table, `A.current_chat = B` not absent (in particular for every
symmetric pairing of `A` and `B`), on a store that does not fail, after
`handleEndChat(A)` the rows of `A` and `B` have `current_chat = 0` and are otherwise
unchanged, every other user's row is unchanged, and the queue has received exactly
"Chat ended!" for `A` and then "Your chat partner has ended the conversation." for `B`. -/
theorem handleEndChat_clears (now : Nat) (w : World) (A B : Int) (ra rb : UserRow)
    (hA : lookup w.users A = some ra) (hAB : ra.current_chat = B) (hB0 : B ≠ 0)
    (hB : lookup w.users B = some rb) :
    lookup (handleEndChat noFail now w A).users A = some { ra with current_chat := 0 } ∧
    lookup (handleEndChat noFail now w A).users B = some { rb with current_chat := 0 } ∧
    (∀ x, x ≠ A → x ≠ B → lookup (handleEndChat noFail now w A).users x = lookup w.users x) ∧
    (handleEndChat noFail now w A).msgQueue.queue
      = w.msgQueue.queue ++
          [textMessage A "Chat ended!",
           textMessage B "Your chat partner has ended the conversation."] ∧
    (handleEndChat noFail now w A).sent = w.sent := by
  have hsA : stateOf now w.users A = rowToState A ra := stateOf_of_lookup hA
  have hsB : stateOf now w.users B = rowToState B rb := stateOf_of_lookup hB
  have hcc : (stateOf now w.users A).CurrentChat = B := by rw [hsA]; exact hAB
  have hwhole := handleEndChat_noFail_paired now w A (by rw [hcc]; exact hB0)
  rw [hcc, hsA, hsB, stateToRow_rowToState_clear hA, stateToRow_rowToState_clear hB] at hwhole
  have hidA := (lookup_some_mem hA).2
  have hidB := (lookup_some_mem hB).2
  rw [hwhole]
  refine ⟨?_, ?_, ?_, rfl, rfl⟩
  · simp only [lookup_upsert, hidA, hidB]
    by_cases hBA : B = A
    · subst hBA
      have : ra = rb := Option.some.inj (hA.symm.trans hB)
      simp [this]
    · simp [hBA]
  · simp only [lookup_upsert, hidA, hidB]
    simp
  · intro x hxA hxB
    simp only [lookup_upsert, hidA, hidB]
    simp [Ne.symm hxA, Ne.symm hxB]

theorem handleEndChat_clears_witness :
    lookup (handleEndChat noFail 0 sampleWorld 4).users 4
      = some { user_id := 4, is_active := true, current_chat := 0, last_activity := 1000,
               country := "", language := "", gender := "" } ∧
    lookup (handleEndChat noFail 0 sampleWorld 4).users 5
      = some { user_id := 5, is_active := true, current_chat := 0, last_activity := 1000,
               country := "", language := "", gender := "" } :=
  have h := handleEndChat_clears 0 sampleWorld 4 5
    { user_id := 4, is_active := true, current_chat := 5, last_activity := 1000,
      country := "", language := "", gender := "" }
    { user_id := 5, is_active := true, current_chat := 4, last_activity := 1000,
      country := "", language := "", gender := "" }
    (by decide) rfl (by decide) (by decide)
  ⟨h.1, h.2.1⟩

/-! ## Symmetric partner maps -/

theorem SymPartner_congr {f g : Int → Int} (hf : SymPartner f) (h : ∀ x, g x = f x) :
    SymPartner g := by
  have : g = f := funext h
  rw [this]; exact hf

theorem SymPartner_pair {f : Int → Int} (hf : SymPartner f) {u c : Int} (hu : u ≠ 0)
    (hc : c ≠ 0) (huc : c ≠ u) (hfu : f u = 0) (hfc : f c = 0) :
    SymPartner (fun x => if c = x then u else if u = x then c else f x) := by
  obtain ⟨h0, hs⟩ := hf
  refine ⟨by simp [hu, hc, h0], ?_⟩
  intro a ha
  by_cases hca : c = a
  · subst hca
    have hne : ¬ c = u := huc
    simp [hne]
  · by_cases hua : u = a
    · subst hua
      simp [hca]
    · simp only [hca, hua, if_false] at ha ⊢
      have hffa := hs a ha
      have h1 : ¬ c = f a := by
        intro h; rw [← h, hfc] at hffa; exact ha (by rw [← hffa, h0])
      have h2 : ¬ u = f a := by
        intro h; rw [← h, hfu] at hffa; exact ha (by rw [← hffa, h0])
      simp [h1, h2, hffa]

theorem SymPartner_clear {f : Int → Int} (hf : SymPartner f) {a b : Int}
    (hg : GoodPair f a b) :
    SymPartner (fun x => if b = x then 0 else if a = x then 0 else f x) := by
  obtain ⟨h0, hs⟩ := hf
  refine ⟨by simp [h0], ?_⟩
  intro x hx
  by_cases hbx : b = x
  · simp [hbx] at hx
  · by_cases hax : a = x
    · simp [hbx, hax] at hx
    · simp only [hbx, hax, if_false] at hx ⊢
      have hffx := hs x hx
      have h1 : ¬ b = f x := by
        intro h
        rw [← h] at hffx
        rcases hg with ⟨_, hba⟩ | ⟨_, hb0⟩
        · exact hax (hba.symm.trans hffx)
        · rw [hb0] at hffx; exact hx (by rw [← hffx, h0])
      have h2 : ¬ a = f x := by
        intro h
        rw [← h] at hffx
        rcases hg with ⟨hab, _⟩ | ⟨ha0, _⟩
        · exact hbx (hab.symm.trans hffx)
        · rw [ha0] at hffx; exact hx (by rw [← hffx, h0])
      simp [h1, h2, hffx]

theorem GoodPair_clear {f : Int → Int} (hf : SymPartner f) {a b : Int}
    (hg : GoodPair f a b) {c d : Int} (hcd : GoodPair f c d) :
    GoodPair (fun x => if b = x then 0 else if a = x then 0 else f x) c d := by
  obtain ⟨h0, -⟩ := hf
  have key : ∀ x y, f x = y → f y = x → (b = x ∨ a = x) →
      (if b = y then 0 else if a = y then 0 else f y) = 0 := by
    intro x y hxy hyx hx
    by_cases hby : b = y
    · simp [hby]
    · by_cases hay : a = y
      · simp [hay]
      · simp only [hby, hay, if_false]
        rcases hg with ⟨hab, hba⟩ | ⟨ha0, hb0⟩
        · rcases hx with hx | hx
          · subst hx; exact absurd (hba.symm.trans hxy) hay
          · subst hx; exact absurd (hab.symm.trans hxy) hby
        · rcases hx with hx | hx
          · subst hx; rw [hb0] at hxy; rw [← hxy, h0]
          · subst hx; rw [ha0] at hxy; rw [← hxy, h0]
  have cleared : ∀ x, (b = x ∨ a = x) →
      (if b = x then 0 else if a = x then 0 else f x) = 0 := by
    intro x hx
    rcases hx with hx | hx
    · simp [hx]
    · by_cases hbx : b = x <;> simp [hbx, hx]
  rcases hcd with ⟨h1, h2⟩ | ⟨h1, h2⟩
  · by_cases hc : b = c ∨ a = c
    · exact Or.inr ⟨cleared c hc, key c d h1 h2 hc⟩
    · by_cases hd : b = d ∨ a = d
      · exact Or.inr ⟨key d c h2 h1 hd, cleared d hd⟩
      · push_neg at hc hd
        left
        simp only [hc.1, hc.2, hd.1, hd.2, if_false]
        exact ⟨h1, h2⟩
  · right
    constructor
    · by_cases hbc : b = c
      · simp [hbc]
      · by_cases hac : a = c
        · simp [hac]
        · simp [hbc, hac, h1]
    · by_cases hbd : b = d
      · simp [hbd]
      · by_cases had : a = d
        · simp [had]
        · simp [hbd, had, h2]

/-! ## The invariant is preserved by every handler -/

theorem lookup_zero_upsert {rows : List UserRow} (h0 : lookup rows 0 = none) {r : UserRow}
    (hr : r.user_id ≠ 0) : lookup (upsert rows r) 0 = none := by
  rw [lookup_upsert]
  simp [hr, h0]

theorem partnerOf_zero {rows : List UserRow} (h0 : lookup rows 0 = none) :
    partnerOf rows 0 = 0 := by
  simp [partnerOf, h0]

theorem ne_zero_of_lookup {rows : List UserRow} (h0 : lookup rows 0 = none) {userID : Int}
    {r : UserRow} (h : lookup rows userID = some r) : userID ≠ 0 := by
  rintro rfl
  rw [h0] at h
  exact Option.noConfusion h

theorem ne_zero_of_partnerOf {rows : List UserRow} (h0 : lookup rows 0 = none) {userID : Int}
    (h : partnerOf rows userID ≠ 0) : userID ≠ 0 := by
  rintro rfl
  exact h (partnerOf_zero h0)

/-- Writing back a user's state with the partner it was read with keeps the invariant. -/
theorem Inv_upsert_keep {rows : List UserRow} (h : Inv rows) (s : UserState)
    (hid : s.UserID ≠ 0) (hcc : s.CurrentChat = partnerOf rows s.UserID) :
    Inv (upsert rows (stateToRow s)) := by
  obtain ⟨hpk, h0, hsym⟩ := h
  refine ⟨PrimaryKey_upsert hpk _, lookup_zero_upsert h0 hid, ?_⟩
  refine SymPartner_congr hsym ?_
  intro x
  rw [partnerOf_upsert, stateToRow_user_id, stateToRow_current_chat, hcc]
  split
  · next hx => rw [hx]
  · rfl

/-- Clearing the partner of both users of a good pair keeps the invariant. -/
theorem Inv_upsert_clear {rows : List UserRow} (h : Inv rows) (s1 s2 : UserState)
    (h1 : s1.UserID ≠ 0) (h2 : s2.UserID ≠ 0) (hc1 : s1.CurrentChat = 0)
    (hc2 : s2.CurrentChat = 0) (hg : GoodPair (partnerOf rows) s1.UserID s2.UserID) :
    Inv (upsert (upsert rows (stateToRow s1)) (stateToRow s2)) := by
  obtain ⟨hpk, h0, hsym⟩ := h
  refine ⟨PrimaryKey_upsert (PrimaryKey_upsert hpk _) _,
    lookup_zero_upsert (lookup_zero_upsert h0 h1) h2, ?_⟩
  refine SymPartner_congr (SymPartner_clear hsym hg) ?_
  intro x
  simp only [partnerOf_upsert, stateToRow_user_id, stateToRow_current_chat, hc1, hc2]

/-- Pairing two users who have no partner keeps the invariant. -/
theorem Inv_upsert_pair {rows : List UserRow} (h : Inv rows) (s1 s2 : UserState)
    (h1 : s1.UserID ≠ 0) (h2 : s2.UserID ≠ 0) (hne : s2.UserID ≠ s1.UserID)
    (hc1 : s1.CurrentChat = s2.UserID) (hc2 : s2.CurrentChat = s1.UserID)
    (hp1 : partnerOf rows s1.UserID = 0) (hp2 : partnerOf rows s2.UserID = 0) :
    Inv (upsert (upsert rows (stateToRow s1)) (stateToRow s2)) := by
  obtain ⟨hpk, h0, hsym⟩ := h
  refine ⟨PrimaryKey_upsert (PrimaryKey_upsert hpk _) _,
    lookup_zero_upsert (lookup_zero_upsert h0 h1) h2, ?_⟩
  refine SymPartner_congr (SymPartner_pair hsym h1 h2 hne hp1 hp2) ?_
  intro x
  simp only [partnerOf_upsert, stateToRow_user_id, stateToRow_current_chat, hc1, hc2]

theorem showMainMenu_users (now : Nat) (w : World) (userID chatID : Int) (b : Bool) :
    (showMainMenu noFail now w userID chatID b).users = w.users := by
  cases b <;> simp [showMainMenu, World.send]

theorem showSettingsMenu_users (now : Nat) (w : World) (userID chatID : Int) :
    (showSettingsMenu noFail now w userID chatID).users = w.users := by
  simp [showSettingsMenu, World.send]

theorem handleToggleActive_Inv (now : Nat) (w : World) (userID chatID : Int)
    (h : Inv w.users) (hid : userID ≠ 0) :
    Inv (handleToggleActive noFail now w userID chatID).users := by
  simp only [handleToggleActive, GetUserState_noFail, SaveUserState_noFail, showMainMenu_users]
  exact Inv_upsert_keep h _ (by simpa [stateOf_UserID] using hid)
    (by simp [stateOf_UserID, stateOf_CurrentChat])

theorem assignSetting_UserID (s : UserState) (setting value : String) :
    (assignSetting s setting value).UserID = s.UserID := by
  unfold assignSetting
  split_ifs <;> rfl

theorem assignSetting_CurrentChat (s : UserState) (setting value : String) :
    (assignSetting s setting value).CurrentChat = s.CurrentChat := by
  unfold assignSetting
  split_ifs <;> rfl

theorem handleSetSetting_Inv (now : Nat) (w : World) (userID : Int) (setting value : String)
    (chatID : Int) (h : Inv w.users) (hid : userID ≠ 0) :
    Inv (handleSetSetting noFail now w userID setting value chatID).users := by
  simp only [handleSetSetting, GetUserState_noFail, SaveUserState_noFail,
    showSettingsMenu_users]
  exact Inv_upsert_keep h _ (by simpa [assignSetting_UserID, stateOf_UserID] using hid)
    (by simp [assignSetting_UserID, assignSetting_CurrentChat, stateOf_UserID,
      stateOf_CurrentChat])

theorem handleClearSetting_Inv (now : Nat) (w : World) (userID : Int) (setting : String)
    (chatID : Int) (h : Inv w.users) (hid : userID ≠ 0) :
    Inv (handleClearSetting noFail now w userID setting chatID).users := by
  simp only [handleClearSetting, GetUserState_noFail, SaveUserState_noFail,
    showSettingsMenu_users]
  exact Inv_upsert_keep h _ (by simpa [assignSetting_UserID, stateOf_UserID] using hid)
    (by simp [assignSetting_UserID, assignSetting_CurrentChat, stateOf_UserID,
      stateOf_CurrentChat])

theorem HandleMessage_Inv (now : Nat) (w : World) (update : Update)
    (h : Inv w.users) (hid : update.FromID ≠ 0) :
    Inv (HandleMessage noFail now w update).users := by
  by_cases hchat : (stateOf now w.users update.FromID).CurrentChat > 0
  · have hkeep := Inv_upsert_keep h
      { stateOf now w.users update.FromID with LastActivity := now }
      (by simpa [stateOf_UserID] using hid) (by simp [stateOf_UserID, stateOf_CurrentChat])
    cases hphoto : update.Photo.getLast? <;>
      simpa [HandleMessage, hchat, hphoto, World.queueText, World.queuePhoto] using hkeep
  · simp only [HandleMessage, GetUserState_noFail, hchat, if_false, showMainMenu_users]
    exact h

theorem handleEndChat_Inv (now : Nat) (w : World) (userID : Int)
    (h : Inv w.users) (hid : userID ≠ 0) :
    Inv (handleEndChat noFail now w userID).users := by
  by_cases hchat : (stateOf now w.users userID).CurrentChat = 0
  · simpa [handleEndChat, hchat, World.queueText] using h
  · rw [handleEndChat_noFail_paired now w userID hchat]
    have hp : partnerOf w.users userID ≠ 0 := by rwa [← stateOf_CurrentChat now]
    refine Inv_upsert_clear h _ _ (by simpa [stateOf_UserID] using hid)
      (by simpa [stateOf_UserID, stateOf_CurrentChat] using hp) rfl rfl ?_
    simp only [stateOf_UserID, stateOf_CurrentChat]
    exact Or.inl ⟨rfl, h.2.2.2 _ hp⟩

theorem first_true_split (p : Int → Bool) (l : List Int) :
    (∀ x ∈ l, p x = false) ∨
    ∃ pre c post, l = pre ++ c :: post ∧ (∀ x ∈ pre, p x = false) ∧ p c = true := by
  induction l with
  | nil => left; simp
  | cons y ys ih =>
    by_cases hy : p y = true
    · right
      exact ⟨[], y, ys, rfl, by simp, hy⟩
    · rcases ih with hall | ⟨pre, c, post, hl, hpre, hc⟩
      · left
        intro x hx
        rcases List.mem_cons.mp hx with rfl | hx
        · simpa using hy
        · exact hall x hx
      · right
        refine ⟨y :: pre, c, post, by rw [hl]; rfl, ?_, hc⟩
        intro x hx
        rcases List.mem_cons.mp hx with rfl | hx
        · simpa using hy
        · exact hpre x hx

theorem handleFindMatch_Inv (shuffle : Nat → List Int → List Int) (hshuffle : IsShuffle shuffle)
    (now : Nat) (w : World) (userID chatID : Int) (h : Inv w.users) (hid : userID ≠ 0) :
    Inv (handleFindMatch noFail shuffle now w userID chatID).users := by
  by_cases hact : (stateOf now w.users userID).IsActive = true
  swap
  · simpa [handleFindMatch, hact, World.queueText] using h
  by_cases hchat : (stateOf now w.users userID).CurrentChat = 0
  swap
  · simpa [handleFindMatch, hact, hchat, World.queueText] using h
  rcases first_true_split (compatibleWith now w.users userID)
      (shuffle now (potentialMatches w.users userID)) with hall | ⟨pre, c, post, hl, hpre, hc⟩
  · rw [handleFindMatch_noFail_eligible shuffle now w userID chatID hact hchat,
      tryMatches_noFail_none now userID chatID _ { w with calls := w.calls + 2 } hall]
    exact h
  · rw [handleFindMatch_noFail_select shuffle now w userID chatID pre c post hact hchat hl
      hpre hc]
    have hmem : c ∈ potentialMatches w.users userID := by
      have : c ∈ shuffle now (potentialMatches w.users userID) := by rw [hl]; simp
      exact (hshuffle now _).subset this
    obtain ⟨rc, hrc, -, hrcchat, hne⟩ := (mem_potentialMatches_lookup h.1).mp hmem
    have hc0 : c ≠ 0 := ne_zero_of_lookup h.2.1 hrc
    have hpc : partnerOf w.users c = 0 := by simp [partnerOf, hrc, hrcchat]
    have hpu : partnerOf w.users userID = 0 := by rwa [← stateOf_CurrentChat now]
    exact Inv_upsert_pair h _ _ (by simpa [stateOf_UserID] using hid)
      (by simpa [stateOf_UserID] using hc0) (by simpa [stateOf_UserID] using hne)
      (by simp [stateOf_UserID]) (by simp [stateOf_UserID])
      (by simpa [stateOf_UserID] using hpu) (by simpa [stateOf_UserID] using hpc)

theorem endInactiveChat_users (now : Nat) (w : World) (chat : ActiveChat) :
    (endInactiveChat noFail now w chat).users = w.users ∨
    (endInactiveChat noFail now w chat).users
      = upsert
          (upsert w.users (stateToRow { stateOf now w.users chat.User1ID with CurrentChat := 0 }))
          (stateToRow { stateOf now w.users chat.User2ID with CurrentChat := 0 }) := by
  unfold endInactiveChat
  simp only []
  split
  · right
    simp [World.queueText]
  · left
    rfl

theorem partnerOf_of_mem {rows : List UserRow} (hpk : PrimaryKey rows) {r : UserRow}
    (h : r ∈ rows) : partnerOf rows r.user_id = r.current_chat := by
  simp [partnerOf, lookup_of_mem hpk h]

theorem activeChats_good {rows : List UserRow} (h : Inv rows) :
    ∀ c ∈ activeChats rows,
      c.User1ID ≠ 0 ∧ c.User2ID ≠ 0 ∧ GoodPair (partnerOf rows) c.User1ID c.User2ID := by
  intro c hc
  unfold activeChats at hc
  simp only [List.mem_flatMap, List.mem_map, List.mem_filter, Bool.and_eq_true,
    decide_eq_true_eq] at hc
  obtain ⟨u1, hu1, u2, ⟨hu2, ⟨h12, h21⟩, -⟩, rfl⟩ := hc
  refine ⟨ne_zero_of_lookup h.2.1 (lookup_of_mem h.1 hu1),
    ne_zero_of_lookup h.2.1 (lookup_of_mem h.1 hu2), Or.inl ⟨?_, ?_⟩⟩
  · simpa [partnerOf_of_mem h.1 hu1] using h12
  · simpa [partnerOf_of_mem h.1 hu2] using h21

theorem foldl_endInactiveChat_Inv (now : Nat) (chats : List ActiveChat) (w : World)
    (h : Inv w.users)
    (hgood : ∀ c ∈ chats,
      c.User1ID ≠ 0 ∧ c.User2ID ≠ 0 ∧ GoodPair (partnerOf w.users) c.User1ID c.User2ID) :
    Inv (chats.foldl (endInactiveChat noFail now) w).users := by
  induction chats generalizing w with
  | nil => exact h
  | cons chat rest ih =>
    rw [List.foldl_cons]
    obtain ⟨h1, h2, hg⟩ := hgood chat (List.mem_cons_self _ _)
    have hrest : ∀ c ∈ rest,
        c.User1ID ≠ 0 ∧ c.User2ID ≠ 0 ∧ GoodPair (partnerOf w.users) c.User1ID c.User2ID :=
      fun c hc => hgood c (List.mem_cons_of_mem _ hc)
    rcases endInactiveChat_users now w chat with hsame | hclear
    · exact ih _ (by rw [hsame]; exact h) (by rw [hsame]; exact hrest)
    · have hfun : partnerOf (endInactiveChat noFail now w chat).users
          = fun x => if chat.User2ID = x then 0 else if chat.User1ID = x then 0
              else partnerOf w.users x := by
        funext x
        rw [hclear]
        simp only [partnerOf_upsert, stateToRow_user_id, stateToRow_current_chat,
          stateOf_UserID]
      refine ih _ ?_ ?_
      · rw [hclear]
        exact Inv_upsert_clear h _ _ (by simpa [stateOf_UserID] using h1)
          (by simpa [stateOf_UserID] using h2) rfl rfl (by simpa [stateOf_UserID] using hg)
      · intro c hc
        obtain ⟨hc1, hc2, hcg⟩ := hrest c hc
        refine ⟨hc1, hc2, ?_⟩
        rw [hfun]
        exact GoodPair_clear h.2.2 hg hcg

theorem checkAndEndInactiveChats_Inv (now : Nat) (w : World) (h : Inv w.users) :
    Inv (checkAndEndInactiveChats noFail now w).2.users := by
  simp only [checkAndEndInactiveChats, GetActiveChats_noFail]
  exact foldl_endInactiveChat_Inv now _ _ h (activeChats_good h)

theorem step_Inv (shuffle : Nat → List Int → List Int) (hshuffle : IsShuffle shuffle)
    (w : World) (e : Nat × Op) (h : Inv w.users) (hid : e.2.ForUser) :
    Inv (step noFail shuffle w e).users := by
  obtain ⟨now, op⟩ := e
  cases op with
  | FindMatch userID chatID => exact handleFindMatch_Inv shuffle hshuffle now w userID chatID h hid
  | Message update => exact HandleMessage_Inv now w update h hid
  | EndChat userID => exact handleEndChat_Inv now w userID h hid
  | Reap => exact checkAndEndInactiveChats_Inv now w h
  | ToggleActive userID chatID => exact handleToggleActive_Inv now w userID chatID h hid
  | SetSetting userID setting value chatID =>
    exact handleSetSetting_Inv now w userID setting value chatID h hid
  | ClearSetting userID setting chatID =>
    exact handleClearSetting_Inv now w userID setting chatID h hid

theorem run_Inv (shuffle : Nat → List Int → List Int) (hshuffle : IsShuffle shuffle)
    (events : List (Nat × Op)) (w : World) (h : Inv w.users)
    (hids : ∀ e ∈ events, e.2.ForUser) :
    Inv (run noFail shuffle events w).users := by
  induction events generalizing w with
  | nil => exact h
  | cons e rest ih =>
    unfold run
    rw [List.foldl_cons]
    exact ih _ (step_Inv shuffle hshuffle w e h (hids e (List.mem_cons_self _ _)))
      (fun e' he' => hids e' (List.mem_cons_of_mem _ he'))

theorem Inv_empty : Inv World.empty.users := by
  refine ⟨by simp [World.empty, PrimaryKey], by simp [World.empty, lookup], ?_, ?_⟩
  · simp [World.empty, partnerOf, lookup]
  · intro a ha
    simp [World.empty, partnerOf, lookup] at ha

theorem Inv_symmetric {rows : List UserRow} (h : Inv rows) {A B : Int} (hB : B ≠ 0)
    (hAB : partnerOf rows A = B) : partnerOf rows B = A := by
  have := h.2.2.2 A (by rw [hAB]; exact hB)
  rwa [hAB] at this

/-- C1. Pairing symmetry is an invariant of the session state machine: start from the
empty table and apply any finite sequence of handler operations one at a time
(`handleFindMatch` with `startChat`, `HandleMessage`, `handleEndChat`,
`checkAndEndInactiveChats`, `handleToggleActive`, `handleSetSetting`,
`handleClearSetting`), each on behalf of a user (an id that is not 0), against a store
that does not fail; in the state reached, for all users `A` and `B`, the partner of `A`
is `B` if and only if the partner of `B` is `A`.  The state after any prefix of the
sequence is reached by that prefix, so this holds in every reached state. -/
theorem pairing_symmetry (shuffle : Nat → List Int → List Int) (hshuffle : IsShuffle shuffle)
    (events : List (Nat × Op)) (hids : ∀ e ∈ events, e.2.ForUser)
    (A B : Int) (hA : A ≠ 0) (hB : B ≠ 0) :
    partnerOf (run noFail shuffle events World.empty).users A = B ↔
    partnerOf (run noFail shuffle events World.empty).users B = A := by
  have hinv := run_Inv shuffle hshuffle events World.empty Inv_empty hids
  exact ⟨Inv_symmetric hinv hB, Inv_symmetric hinv hA⟩

theorem pairing_symmetry_witness :
    (partnerOf (run noFail keepOrder sampleEvents World.empty).users 1 = 2 ↔
      partnerOf (run noFail keepOrder sampleEvents World.empty).users 2 = 1) ∧
    partnerOf (run noFail keepOrder sampleEvents World.empty).users 1 = 2 :=
  ⟨pairing_symmetry keepOrder keepOrder_isShuffle sampleEvents
      (by
        intro e he
        simp only [sampleEvents, List.mem_cons, List.mem_singleton, List.not_mem_nil,
          or_false] at he
        rcases he with rfl | rfl | rfl <;> simp [Op.ForUser])
      1 2 (by decide) (by decide),
    by decide⟩

/-! ## Concurrent calls of handleFindMatch -/

theorem tryMatches_eq_pickMatch (fails : Nat → Bool) (now : Nat) (userID chatID : Int)
    (l : List Int) (w : World) :
    tryMatches fails now userID chatID l w
      = match pickMatch fails now userID chatID l w with
        | (none, w1) => w1
        | (some matchID, w1) => commitMatch fails now w1 userID chatID matchID := by
  induction l generalizing w with
  | nil => simp [tryMatches, pickMatch]
  | cons m rest ih =>
    rw [tryMatches, pickMatch]
    rcases hcc : checkCompatibility fails now w userID m with ⟨⟨c, e⟩, w1⟩
    cases e <;> cases c <;> simp [ih, commitMatch]

/-- The two parts make up the handler: `handleFindMatch` is `selectMatch` followed, when
a match was selected, by `commitMatch`. -/
theorem handleFindMatch_eq_select_commit (fails : Nat → Bool)
    (shuffle : Nat → List Int → List Int) (now : Nat) (w : World) (userID chatID : Int) :
    handleFindMatch fails shuffle now w userID chatID
      = match selectMatch fails shuffle now w userID chatID with
        | (none, w1) => w1
        | (some matchID, w1) => commitMatch fails now w1 userID chatID matchID := by
  unfold handleFindMatch selectMatch
  rcases hg : GetUserState fails now w userID with ⟨_ | userState, w1⟩
  · simp
  · simp only []
    by_cases hact : userState.IsActive = true
    · by_cases hchat : userState.CurrentChat = 0
      · simp only [hact, hchat]
        rcases hf : FindPotentialMatches fails w1 userID with ⟨_ | cands, w2⟩
        · simp
        · simp [tryMatches_eq_pickMatch]
      · simp [hact, hchat]
    · simp [hact]

theorem advance_twice (fails : Nat → Bool) (shuffle : Nat → List Int → List Int) (now : Nat)
    (w : World) (userID chatID : Int) :
    (((Thread.Start now userID chatID).advance fails shuffle w).1.advance fails shuffle
        ((Thread.Start now userID chatID).advance fails shuffle w).2)
      = (Thread.Finished, handleFindMatch fails shuffle now w userID chatID) := by
  rw [handleFindMatch_eq_select_commit]
  simp only [Thread.advance]
  rcases hs : selectMatch fails shuffle now w userID chatID with ⟨_ | m, w1⟩ <;>
    simp [Thread.advance]

theorem interleave_first_then_second (fails : Nat → Bool) (shuffle : Nat → List Int → List Int)
    (nowA nowB : Nat) (w : World) (userA chatA userB chatB : Int) :
    interleave fails shuffle [true, true, false, false]
        { first := Thread.Start nowA userA chatA, second := Thread.Start nowB userB chatB,
          world := w }
      = { first := Thread.Finished, second := Thread.Finished,
          world := handleFindMatch fails shuffle nowB
            (handleFindMatch fails shuffle nowA w userA chatA) userB chatB } := by
  simp only [interleave]
  rw [advance_twice]
  simp only []
  rw [advance_twice]

theorem interleave_second_then_first (fails : Nat → Bool) (shuffle : Nat → List Int → List Int)
    (nowA nowB : Nat) (w : World) (userA chatA userB chatB : Int) :
    interleave fails shuffle [false, false, true, true]
        { first := Thread.Start nowA userA chatA, second := Thread.Start nowB userB chatB,
          world := w }
      = { first := Thread.Finished, second := Thread.Finished,
          world := handleFindMatch fails shuffle nowA
            (handleFindMatch fails shuffle nowB w userB chatB) userA chatA } := by
  simp only [interleave]
  rw [advance_twice]
  simp only []
  rw [advance_twice]

theorem Inv_of_unpaired {rows : List UserRow} (hpk : PrimaryKey rows)
    (h0 : lookup rows 0 = none) (hall : ∀ r ∈ rows, r.current_chat = 0) : Inv rows := by
  have hzero : ∀ x, partnerOf rows x = 0 := by
    intro x
    unfold partnerOf
    cases hx : lookup rows x with
    | none => rfl
    | some r => exact hall r (lookup_some_mem hx).1
  exact ⟨hpk, h0, hzero 0, fun a ha => absurd (hzero a) ha⟩

theorem Inv_not_shared {rows : List UserRow} (h : Inv rows) {A B c : Int} (hAB : A ≠ B)
    (hc : c ≠ 0) : ¬ (partnerOf rows A = c ∧ partnerOf rows B = c) := by
  rintro ⟨hA, hB⟩
  exact hAB ((Inv_symmetric h hc hA).symm.trans (Inv_symmetric h hc hB))

/-- C2, the claim as stated, refuted.  In `raceWorld` the requesters 1 and 2 both evaluate
the candidate 8; in the interleaving where each selects before either commits, both end
with partner 8 while 8 ends with partner 2: the pairing of user 1 is one-sided. -/
theorem findMatch_race_counterexample :
    ¬ PairingIsAtomic noFail keepOrder raceStart 1 2 8 := by
  intro h
  exact (h [true, false, true, false] (by decide) (by decide)).1 (by decide)

/-- C2, amended.  `handleFindMatch` and `startChat` take no mutual-exclusion guard; the
sequence "read eligibility, then write pairing" is atomic when the two calls do not
overlap.  For two calls by different requesters of which one runs to completion before
the other starts (in either order), on a table with symmetric pairings and a store that
does not fail, both calls finish, at most one requester ends paired with a given
candidate, and the table ends with only symmetric pairings. -/
theorem findMatch_serial_atomic (shuffle : Nat → List Int → List Int)
    (hshuffle : IsShuffle shuffle) (nowA nowB : Nat) (w : World)
    (userA chatA userB chatB candidate : Int) (hinv : Inv w.users) (hA : userA ≠ 0)
    (hB : userB ≠ 0) (hAB : userA ≠ userB) (hc : candidate ≠ 0) (sched : List Bool)
    (hs : Serial sched) :
    (interleave noFail shuffle sched
      { first := Thread.Start nowA userA chatA, second := Thread.Start nowB userB chatB,
        world := w }).first = Thread.Finished ∧
    (interleave noFail shuffle sched
      { first := Thread.Start nowA userA chatA, second := Thread.Start nowB userB chatB,
        world := w }).second = Thread.Finished ∧
    ¬ (partnerOf (interleave noFail shuffle sched
        { first := Thread.Start nowA userA chatA, second := Thread.Start nowB userB chatB,
          world := w }).world.users userA = candidate ∧
       partnerOf (interleave noFail shuffle sched
        { first := Thread.Start nowA userA chatA, second := Thread.Start nowB userB chatB,
          world := w }).world.users userB = candidate) ∧
    ∀ x y : Int, x ≠ 0 → y ≠ 0 →
      (partnerOf (interleave noFail shuffle sched
        { first := Thread.Start nowA userA chatA, second := Thread.Start nowB userB chatB,
          world := w }).world.users x = y ↔
       partnerOf (interleave noFail shuffle sched
        { first := Thread.Start nowA userA chatA, second := Thread.Start nowB userB chatB,
          world := w }).world.users y = x) := by
  rcases hs with rfl | rfl
  · rw [interleave_first_then_second]
    have hfinal : Inv (handleFindMatch noFail shuffle nowB
        (handleFindMatch noFail shuffle nowA w userA chatA) userB chatB).users :=
      handleFindMatch_Inv shuffle hshuffle nowB _ userB chatB
        (handleFindMatch_Inv shuffle hshuffle nowA w userA chatA hinv hA) hB
    exact ⟨rfl, rfl, Inv_not_shared hfinal hAB hc,
      fun x y hx hy => ⟨Inv_symmetric hfinal hy, Inv_symmetric hfinal hx⟩⟩
  · rw [interleave_second_then_first]
    have hfinal : Inv (handleFindMatch noFail shuffle nowA
        (handleFindMatch noFail shuffle nowB w userB chatB) userA chatA).users :=
      handleFindMatch_Inv shuffle hshuffle nowA _ userA chatA
        (handleFindMatch_Inv shuffle hshuffle nowB w userB chatB hinv hB) hA
    exact ⟨rfl, rfl, Inv_not_shared hfinal hAB hc,
      fun x y hx hy => ⟨Inv_symmetric hfinal hy, Inv_symmetric hfinal hx⟩⟩

theorem findMatch_serial_atomic_witness :
    ¬ (partnerOf (interleave noFail keepOrder [true, true, false, false]
        { first := Thread.Start 0 1 1, second := Thread.Start 0 2 2,
          world := raceWorld }).world.users 1 = 8 ∧
       partnerOf (interleave noFail keepOrder [true, true, false, false]
        { first := Thread.Start 0 1 1, second := Thread.Start 0 2 2,
          world := raceWorld }).world.users 2 = 8) :=
  (findMatch_serial_atomic keepOrder keepOrder_isShuffle 0 0 raceWorld 1 1 2 2 8
    (Inv_of_unpaired (by decide) (by decide) (by decide)) (by decide) (by decide) (by decide)
    (by decide) [true, true, false, false] (Or.inl rfl)).2.2.1

/-! ## handleEndChat for a user who is not in a chat -/

theorem partnerOf_handleEndChat_self (now : Nat) (w : World) (userID : Int)
    (hchat : partnerOf w.users userID ≠ 0) :
    partnerOf (handleEndChat noFail now w userID).users userID = 0 := by
  have hs : (stateOf now w.users userID).CurrentChat ≠ 0 := by
    rwa [stateOf_CurrentChat]
  rw [handleEndChat_noFail_paired now w userID hs]
  simp only [partnerOf_upsert, stateToRow_user_id, stateToRow_current_chat, stateOf_UserID]
  simp

/-- C11. The function `handleEndChat` on a user who is not in a chat is a no-op with a
notice: when the user's record is read and shows no partner, the world after the call is
the world before it with the single message "You are not in a chat!" appended for that
user and one store call (the read) counted, so nothing else is enqueued and the table is
unchanged.  This covers a user who has no row (never seen before), and a user `A` right
after `handleEndChat(A)` has ended a chat of `A`. -/
theorem handleEndChat_not_in_chat (fails : Nat → Bool) (now : Nat) (w : World)
    (userID : Int) :
    (fails w.calls = false → partnerOf w.users userID = 0 →
      handleEndChat fails now w userID
        = { w with
            msgQueue := { w.msgQueue with
              queue := w.msgQueue.queue ++ [textMessage userID "You are not in a chat!"] }
            calls := w.calls + 1 }) ∧
    (lookup w.users userID = none → partnerOf w.users userID = 0) ∧
    (partnerOf w.users userID ≠ 0 →
      ∀ later : Nat,
        handleEndChat noFail later (handleEndChat noFail now w userID) userID
          = { handleEndChat noFail now w userID with
              msgQueue := { (handleEndChat noFail now w userID).msgQueue with
                queue := (handleEndChat noFail now w userID).msgQueue.queue ++
                  [textMessage userID "You are not in a chat!"] }
              calls := (handleEndChat noFail now w userID).calls + 1 }) := by
  have key : ∀ (f : Nat → Bool) (t : Nat) (v : World), f v.calls = false →
      partnerOf v.users userID = 0 →
      handleEndChat f t v userID
        = { v with
            msgQueue := { v.msgQueue with
              queue := v.msgQueue.queue ++ [textMessage userID "You are not in a chat!"] }
            calls := v.calls + 1 } := by
    intro f t v hread hchat
    have hs : (stateOf t v.users userID).CurrentChat = 0 := by
      rw [stateOf_CurrentChat]; exact hchat
    simp [handleEndChat, GetUserState, hread, hs, World.queueText,
      MessageQueue.QueueTextMessage, textMessage]
  refine ⟨key fails now w, ?_, ?_⟩
  · intro hnone
    simp [partnerOf, hnone]
  · intro hchat later
    exact key noFail later _ rfl (partnerOf_handleEndChat_self now w userID hchat)

theorem handleEndChat_not_in_chat_witness :
    handleEndChat noFail 0 sampleWorld 9
      = { sampleWorld with
          msgQueue := { sampleWorld.msgQueue with
            queue := sampleWorld.msgQueue.queue ++ [textMessage 9 "You are not in a chat!"] }
          calls := sampleWorld.calls + 1 } ∧
    handleEndChat noFail 1 (handleEndChat noFail 0 sampleWorld 4) 4
      = { handleEndChat noFail 0 sampleWorld 4 with
          msgQueue := { (handleEndChat noFail 0 sampleWorld 4).msgQueue with
            queue := (handleEndChat noFail 0 sampleWorld 4).msgQueue.queue ++
              [textMessage 4 "You are not in a chat!"] }
          calls := (handleEndChat noFail 0 sampleWorld 4).calls + 1 } :=
  ⟨(handleEndChat_not_in_chat noFail 0 sampleWorld 9).1 rfl (by decide),
   (handleEndChat_not_in_chat noFail 0 sampleWorld 4).2.2 (by decide) 1⟩

/-! ## HandleMessage -/

theorem showMainMenu_frame (fails : Nat → Bool) (now : Nat) (w : World) (userID chatID : Int)
    (b : Bool) :
    (showMainMenu fails now w userID chatID b).users = w.users ∧
    (showMainMenu fails now w userID chatID b).msgQueue = w.msgQueue := by
  unfold showMainMenu GetUserState
  by_cases hf : fails w.calls = true <;> cases b <;> simp [hf, World.send]

theorem stateToRow_rowToState_touch {rows : List UserRow} {userID : Int} {r : UserRow}
    (h : lookup rows userID = some r) (now : Nat) :
    stateToRow { rowToState userID r with LastActivity := now }
      = { r with last_activity := formatRFC3339 now } := by
  have hid := (lookup_some_mem h).2
  cases r
  simp_all [stateToRow, rowToState]

/-- C12. The function `HandleMessage` relays a text message verbatim with the
"Anonymous: " prefix to the partner only.  For a user `U` whose row names a partner `P`
(a user id, hence positive) and a message without photo, when the read and the write of
`U` succeed, exactly one text message is appended to the queue, for `P`, with the text
"Anonymous: " followed by the text of the message; the row of `U` gets the instant of
the call as `last_activity` (at the one-second resolution of the column) and keeps its
partner, active flag and settings; every other row, the row of `P` included, is
unchanged.  For a user with no partner, whatever the store does, nothing is enqueued and
the table is not written. -/
theorem HandleMessage_relay (fails : Nat → Bool) (now : Nat) (w : World) (update : Update) :
    (∀ (ru : UserRow) (P : Int),
      fails w.calls = false → fails (w.calls + 1) = false →
      lookup w.users update.FromID = some ru → ru.current_chat = P → 0 < P →
      update.Photo = [] →
      (HandleMessage fails now w update).msgQueue.queue
        = w.msgQueue.queue ++ [textMessage P ("Anonymous: " ++ update.Text)] ∧
      lookup (HandleMessage fails now w update).users update.FromID
        = some { ru with last_activity := formatRFC3339 now } ∧
      (∀ x, x ≠ update.FromID →
        lookup (HandleMessage fails now w update).users x = lookup w.users x) ∧
      (HandleMessage fails now w update).sent = w.sent) ∧
    (partnerOf w.users update.FromID = 0 →
      (HandleMessage fails now w update).msgQueue = w.msgQueue ∧
      (HandleMessage fails now w update).users = w.users) := by
  constructor
  · intro ru P hread hwrite hU hP hpos hphoto
    have hs : stateOf now w.users update.FromID = rowToState update.FromID ru :=
      stateOf_of_lookup hU
    have hcc : (rowToState update.FromID ru).CurrentChat = P := hP
    have hid := (lookup_some_mem hU).2
    have hwhole : HandleMessage fails now w update
        = { users := upsert w.users { ru with last_activity := formatRFC3339 now }
            msgQueue := { w.msgQueue with
              queue := w.msgQueue.queue ++ [textMessage P ("Anonymous: " ++ update.Text)] }
            sent := w.sent
            calls := w.calls + 2 } := by
      simp [HandleMessage, GetUserState, SaveUserState, hread, hwrite, hs, hcc, hpos,
        hphoto, World.queueText, MessageQueue.QueueTextMessage, textMessage,
        ← stateToRow_rowToState_touch hU now]
    rw [hwhole]
    refine ⟨rfl, ?_, ?_, rfl⟩
    · simp [lookup_upsert, hid]
    · intro x hx
      simp [lookup_upsert, hid, Ne.symm hx]
  · intro hnone
    have hs : (stateOf now w.users update.FromID).CurrentChat = 0 := by
      rw [stateOf_CurrentChat]; exact hnone
    unfold HandleMessage GetUserState
    by_cases hf : fails w.calls = true
    · simp [hf]
    · have hframe := showMainMenu_frame fails now { w with calls := w.calls + 1 }
        update.FromID update.ChatID false
      simpa [hf, hs] using hframe.symm

theorem HandleMessage_relay_witness :
    (HandleMessage noFail 7000000000 sampleWorld
        { FromID := 4, ChatID := 4, Text := "hello", Photo := [], Caption := "" }).msgQueue.queue
      = sampleWorld.msgQueue.queue ++ [textMessage 5 ("Anonymous: " ++ "hello")] ∧
    (HandleMessage noFail 7000000000 sampleWorld
        { FromID := 3, ChatID := 3, Text := "hello", Photo := [], Caption := "" }).users
      = sampleWorld.users :=
  ⟨((HandleMessage_relay noFail 7000000000 sampleWorld
      { FromID := 4, ChatID := 4, Text := "hello", Photo := [], Caption := "" }).1
      { user_id := 4, is_active := true, current_chat := 5, last_activity := 1000,
        country := "", language := "", gender := "" } 5 rfl rfl (by decide) rfl (by decide)
      rfl).1,
   ((HandleMessage_relay noFail 7000000000 sampleWorld
      { FromID := 3, ChatID := 3, Text := "hello", Photo := [], Caption := "" }).2
      (by decide)).2⟩

/-! ## The drain loop -/

/-- C15. One drain tick delivers at most once: on a queue with head `msg` a tick of
`processQueue` removes exactly `msg`, hands exactly the message built from `msg` to the
transport once, and leaves the other messages in their order, whether the send returns
an error or not (nothing is enqueued again); on an empty queue a tick sends nothing and
leaves the queue empty. -/
theorem processQueueTick_once (sendErr : Bool) (w : World) :
    (∀ (msg : QueuedMessage) (rest : List QueuedMessage),
      w.msgQueue.queue = msg :: rest →
      processQueueTick sendErr w
        = { w with
            msgQueue := { w.msgQueue with queue := rest }
            sent := w.sent ++
              [match msg.MsgType with
               | MessageType.TextMessage => Chattable.Message msg.ChatID msg.Text []
               | MessageType.PhotoMessage =>
                 Chattable.Photo msg.ChatID msg.PhotoFileID msg.Caption] }) ∧
    (w.msgQueue.queue = [] → processQueueTick sendErr w = w) := by
  constructor
  · intro msg rest hq
    unfold processQueueTick MessageQueue.dequeue sendMessage
    cases hty : msg.MsgType
    · simp [hq, hty, World.send]
    · by_cases hcap : msg.Caption = "" <;> simp [hq, hty, World.send, hcap]
  · intro hq
    unfold processQueueTick MessageQueue.dequeue
    simp [hq]

theorem processQueueTick_once_witness :
    processQueueTick true
        { sampleWorld with
          msgQueue := { queue := [textMessage 4 "a", textMessage 5 "b"], running := true } }
      = { sampleWorld with
          msgQueue := { queue := [textMessage 5 "b"], running := true }
          sent := sampleWorld.sent ++ [Chattable.Message 4 "a" []] } ∧
    processQueueTick true sampleWorld = sampleWorld :=
  ⟨(processQueueTick_once true
      { sampleWorld with
        msgQueue := { queue := [textMessage 4 "a", textMessage 5 "b"], running := true } }).1
      (textMessage 4 "a") [textMessage 5 "b"] rfl,
   (processQueueTick_once true sampleWorld).2 rfl⟩

/-! ## The rate of the drain loop -/

theorem tickerPeriod_eq : tickerPeriod = 33333333 := by
  decide

theorem sendsInWindow_le (start len : Nat) :
    sendsInWindow start len ≤ len / tickerPeriod + 1 := by
  unfold sendsInWindow
  rw [tickerPeriod_eq]
  have hsub : (Finset.range (start + len + 1)).filter
      (fun k => 1 ≤ k ∧ start ≤ k * 33333333 ∧ k * 33333333 ≤ start + len)
      ⊆ Finset.Icc ((start + 33333332) / 33333333)
          ((start + 33333332) / 33333333 + len / 33333333) := by
    intro k hk
    simp only [Finset.mem_filter, Finset.mem_range] at hk
    rw [Finset.mem_Icc]
    omega
  calc _ ≤ (Finset.Icc ((start + 33333332) / 33333333)
          ((start + 33333332) / 33333333 + len / 33333333)).card := Finset.card_le_card hsub
    _ = len / 33333333 + 1 := by rw [Nat.card_Icc]; omega

/-- C16, the claim as stated, refuted.  The period is 33333333 ns, a little less than a
thirtieth of a second, so in the window of 3333334 seconds that starts at the first tick
the ticks 1 to 100000022 fall: 100000022 sends, one more than `30 * 3333334 + 1`. -/
theorem rate_bound_counterexample :
    sendsInWindow tickerPeriod (3333334 * Second) = 100000022 ∧
    ¬ (sendsInWindow tickerPeriod (3333334 * Second) ≤ MessageRateLimit * 3333334 + 1) := by
  have hcount : sendsInWindow tickerPeriod (3333334 * Second) = 100000022 := by
    unfold sendsInWindow
    rw [tickerPeriod_eq]
    have hset : (Finset.range (33333333 + 3333334 * Second + 1)).filter
        (fun k => 1 ≤ k ∧ 33333333 ≤ k * 33333333 ∧
          k * 33333333 ≤ 33333333 + 3333334 * Second)
        = Finset.Icc 1 100000022 := by
      ext k
      simp only [Finset.mem_filter, Finset.mem_range, Finset.mem_Icc, Second]
      omega
    rw [hset, Nat.card_Icc]
  refine ⟨hcount, ?_⟩
  rw [hcount]
  decide

/-- C16, amended.  With the ticker period `time.Second / MessageRateLimit` in whole
nanoseconds and one send per tick, the number of sends that fall in a window of `T`
seconds is at most `rateLimit * T + 1 + (10 * T) / 33333333`; it is at most
`rateLimit * T + 1` for every window of at most 3333333 seconds. -/
theorem rate_bound (start T : Nat) :
    sendsInWindow start (T * Second) ≤ MessageRateLimit * T + 1 + (10 * T) / tickerPeriod ∧
    (T ≤ 3333333 → sendsInWindow start (T * Second) ≤ MessageRateLimit * T + 1) := by
  have h := sendsInWindow_le start (T * Second)
  rw [tickerPeriod_eq] at h ⊢
  simp only [Second, MessageRateLimit] at h ⊢
  constructor
  · omega
  · intro hT
    omega

theorem rate_bound_witness :
    sendsInWindow 5 (90 * Second) ≤ MessageRateLimit * 90 + 1 :=
  (rate_bound 5 90).2 (by decide)

/-! ## Store failures -/

/-- C17, the claim as stated, refuted.  User 4 of `sampleWorld` is paired with user 5;
the read of user 4 succeeds and the write of the refreshed `last_activity` fails (store
call 1): the table is unchanged and the message is enqueued to user 5 all the same. -/
theorem HandleMessage_write_failure_counterexample :
    failAt 1 sampleWorld.calls = false ∧ failAt 1 (sampleWorld.calls + 1) = true ∧
    HandleMessage (failAt 1) 7000000000 sampleWorld
        { FromID := 4, ChatID := 4, Text := "hello", Photo := [], Caption := "" }
      = { sampleWorld with
          msgQueue := { sampleWorld.msgQueue with
            queue := [textMessage 5 "Anonymous: hello"] }
          calls := 2 } := by
  decide

/-- C17, amended.  A failed read aborts the relay: if the initial read of the sender's
record fails, nothing is enqueued and nothing is written.  A failed write of the
sender's refreshed `LastActivity` does not abort it: the error is only logged, the table
is left as it was and exactly one message is still enqueued, to the partner. -/
theorem HandleMessage_store_failure (fails : Nat → Bool) (now : Nat) (w : World)
    (update : Update) :
    (fails w.calls = true →
      HandleMessage fails now w update = { w with calls := w.calls + 1 }) ∧
    (fails w.calls = false → fails (w.calls + 1) = true →
      0 < partnerOf w.users update.FromID →
      ∃ m : QueuedMessage, m.ChatID = partnerOf w.users update.FromID ∧
        HandleMessage fails now w update
          = { w with
              msgQueue := { w.msgQueue with queue := w.msgQueue.queue ++ [m] }
              calls := w.calls + 2 }) := by
  constructor
  · intro hread
    simp [HandleMessage, GetUserState, hread]
  · intro hread hwrite hpos
    have hs : (stateOf now w.users update.FromID).CurrentChat
        = partnerOf w.users update.FromID := stateOf_CurrentChat now w.users update.FromID
    cases hphoto : update.Photo.getLast? with
    | none =>
      refine ⟨textMessage (partnerOf w.users update.FromID) ("Anonymous: " ++ update.Text),
        rfl, ?_⟩
      simp [HandleMessage, GetUserState, SaveUserState, hread, hwrite, hs, hpos, hphoto,
        World.queueText, MessageQueue.QueueTextMessage, textMessage]
    | some photoFileID =>
      refine ⟨{ ChatID := partnerOf w.users update.FromID
                MsgType := MessageType.PhotoMessage
                Text := ""
                PhotoFileID := photoFileID
                Caption := if update.Caption ≠ "" then "Anonymous: " ++ update.Caption
                  else "Anonymous sent a photo" }, rfl, ?_⟩
      simp [HandleMessage, GetUserState, SaveUserState, hread, hwrite, hs, hpos, hphoto,
        World.queuePhoto, MessageQueue.QueuePhotoMessage]

theorem HandleMessage_store_failure_witness :
    HandleMessage (failAt 0) 7000000000 sampleWorld
        { FromID := 4, ChatID := 4, Text := "hello", Photo := [], Caption := "" }
      = { sampleWorld with calls := sampleWorld.calls + 1 } :=
  (HandleMessage_store_failure (failAt 0) 7000000000 sampleWorld
    { FromID := 4, ChatID := 4, Text := "hello", Photo := [], Caption := "" }).1 rfl

/-- C18: the code at the failing inputs.  User 1 of `sampleWorld` asks for a match and
user 2 is selected.  When the first write of `startChat` fails (store call 6), the table
is unchanged and no "Chat started!" notice is enqueued, yet "Match found! Starting
chat..." is enqueued for the requester.  When the second write fails (store call 7), the
row of user 1 names user 2 while the row of user 2 names nobody, no "Chat started!"
notice is enqueued, and "Match found! Starting chat..." is enqueued all the same. -/
theorem handleFindMatch_reports_uncommitted_match :
    ((handleFindMatch (failAt 6) keepOrder 5000000000 sampleWorld 1 1).users
        = sampleWorld.users ∧
      (handleFindMatch (failAt 6) keepOrder 5000000000 sampleWorld 1 1).msgQueue.queue
        = [textMessage 1 "Match found! Starting chat..."]) ∧
    (partnerOf (handleFindMatch (failAt 7) keepOrder 5000000000 sampleWorld 1 1).users 1 = 2 ∧
      partnerOf (handleFindMatch (failAt 7) keepOrder 5000000000 sampleWorld 1 1).users 2 = 0 ∧
      (handleFindMatch (failAt 7) keepOrder 5000000000 sampleWorld 1 1).msgQueue.queue
        = [textMessage 1 "Match found! Starting chat..."]) := by
  decide

/-! ## The inactivity sweep -/

theorem endInactiveChat_noFail (now : Nat) (w : World) (chat : ActiveChat) :
    endInactiveChat noFail now w chat
      = if timedOut now chat then
          { users :=
              upsert
                (upsert w.users
                  (stateToRow { stateOf now w.users chat.User1ID with CurrentChat := 0 }))
                (stateToRow { stateOf now w.users chat.User2ID with CurrentChat := 0 })
            msgQueue := { w.msgQueue with
              queue := w.msgQueue.queue ++
                [inactivityNotice chat.User1ID, inactivityNotice chat.User2ID] }
            sent := w.sent
            calls := w.calls + 4 }
        else w := by
  unfold endInactiveChat timedOut
  simp only []
  split
  · simp [World.queueText, MessageQueue.QueueTextMessage, inactivityNotice, textMessage]
  · rfl

theorem foldl_endInactiveChat_queue (now : Nat) (chats : List ActiveChat) (w : World) :
    (chats.foldl (endInactiveChat noFail now) w).msgQueue.queue
      = w.msgQueue.queue ++ reapNotices now chats := by
  induction chats generalizing w with
  | nil => simp [reapNotices]
  | cons chat rest ih =>
    rw [List.foldl_cons, ih, endInactiveChat_noFail]
    unfold reapNotices
    rw [List.flatMap_cons]
    split <;> simp

theorem foldl_endInactiveChat_lookup (now : Nat) (chats : List ActiveChat) (w : World)
    (x : Int) (hfree : ∀ c ∈ chats, c.User1ID ≠ x ∧ c.User2ID ≠ x) :
    lookup (chats.foldl (endInactiveChat noFail now) w).users x = lookup w.users x := by
  induction chats generalizing w with
  | nil => rfl
  | cons chat rest ih =>
    rw [List.foldl_cons, ih _ (fun c hc => hfree c (List.mem_cons_of_mem _ hc)),
      endInactiveChat_noFail]
    obtain ⟨h1, h2⟩ := hfree chat (List.mem_cons_self _ _)
    split
    · simp [lookup_upsert, stateToRow_user_id, stateOf_UserID, h1, h2]
    · rfl

theorem reapNotices_filter_free (now : Nat) (chats : List ActiveChat) (x : Int)
    (hfree : ∀ c ∈ chats, c.User1ID ≠ x ∧ c.User2ID ≠ x) :
    (reapNotices now chats).filter (fun m => decide (m.ChatID = x)) = [] := by
  induction chats with
  | nil => simp [reapNotices]
  | cons chat rest ih =>
    have hrest := ih (fun c hc => hfree c (List.mem_cons_of_mem _ hc))
    obtain ⟨h1, h2⟩ := hfree chat (List.mem_cons_self _ _)
    unfold reapNotices at hrest ⊢
    rw [List.flatMap_cons, List.filter_append, hrest]
    split <;> simp [inactivityNotice, textMessage, h1, h2]

theorem reapNotices_append (now : Nat) (l₁ l₂ : List ActiveChat) :
    reapNotices now (l₁ ++ l₂) = reapNotices now l₁ ++ reapNotices now l₂ := by
  unfold reapNotices
  rw [List.flatMap_append]

theorem PrimaryKey_inj {rows : List UserRow} (hpk : PrimaryKey rows) {x y : UserRow}
    (hx : x ∈ rows) (hy : y ∈ rows) (hid : x.user_id = y.user_id) : x = y := by
  have h1 := lookup_of_mem hpk hx
  have h2 := lookup_of_mem hpk hy
  rw [hid, h2] at h1
  exact (Option.some.inj h1).symm

theorem mem_activeChats {rows : List UserRow} {c : ActiveChat} :
    c ∈ activeChats rows ↔
      ∃ u1 ∈ rows, ∃ u2 ∈ rows, u1.current_chat = u2.user_id ∧
        u2.current_chat = u1.user_id ∧ u1.user_id < u2.user_id ∧ c = chatOf u1 u2 := by
  unfold activeChats chatOf
  simp only [List.mem_flatMap, List.mem_map, List.mem_filter, Bool.and_eq_true,
    decide_eq_true_eq]
  constructor
  · rintro ⟨u1, hu1, u2, ⟨hu2, ⟨h12, h21⟩, hlt⟩, rfl⟩
    exact ⟨u1, hu1, u2, hu2, h12, h21, hlt, rfl⟩
  · rintro ⟨u1, hu1, u2, hu2, h12, h21, hlt, rfl⟩
    exact ⟨u1, hu1, u2, ⟨hu2, ⟨h12, h21⟩, hlt⟩, rfl⟩

/-- Each pairing is listed once by the query of `GetActiveChats`. -/
theorem activeChats_nodup {rows : List UserRow} (hpk : PrimaryKey rows) :
    (activeChats rows).Nodup := by
  have hrows : rows.Nodup := List.Nodup.of_map _ hpk
  unfold activeChats
  rw [List.nodup_flatMap]
  constructor
  · intro u1 _
    refine List.Nodup.map_on ?_ (hrows.filter _)
    intro x hx y hy hxy
    have hid : x.user_id = y.user_id := congrArg ActiveChat.User2ID hxy
    exact PrimaryKey_inj hpk (List.mem_of_mem_filter hx) (List.mem_of_mem_filter hy) hid
  · refine hrows.pairwise_of_forall_ne ?_
    intro a ha b hb hab
    simp only [Function.onFun]
    intro c hca hcb
    rw [List.mem_map] at hca hcb
    obtain ⟨x, -, rfl⟩ := hca
    obtain ⟨y, -, hy⟩ := hcb
    have hid : b.user_id = a.user_id := congrArg ActiveChat.User1ID hy
    exact hab (PrimaryKey_inj hpk ha hb hid.symm)

theorem row_of_lookup {rows : List UserRow} (hpk : PrimaryKey rows) {userID : Int}
    {r u : UserRow} (hr : lookup rows userID = some r) (hu : u ∈ rows)
    (hid : u.user_id = userID) : u = r := by
  have h := lookup_of_mem hpk hu
  rw [hid, hr] at h
  exact (Option.some.inj h).symm

/-- A pairing of `A < B` is the row `chatOf ra rb` of the query of `GetActiveChats`, and
no other row of the query mentions `A` or `B`. -/
theorem activeChats_split {rows : List UserRow} (hpk : PrimaryKey rows) {A B : Int}
    {ra rb : UserRow} (hA : lookup rows A = some ra) (hB : lookup rows B = some rb)
    (hAB : ra.current_chat = B) (hBA : rb.current_chat = A) (hlt : A < B) :
    ∃ pre post, activeChats rows = pre ++ chatOf ra rb :: post ∧
      (∀ c ∈ pre, (c.User1ID ≠ A ∧ c.User2ID ≠ A) ∧ (c.User1ID ≠ B ∧ c.User2ID ≠ B)) ∧
      (∀ c ∈ post, (c.User1ID ≠ A ∧ c.User2ID ≠ A) ∧ (c.User1ID ≠ B ∧ c.User2ID ≠ B)) := by
  obtain ⟨hra, hida⟩ := lookup_some_mem hA
  obtain ⟨hrb, hidb⟩ := lookup_some_mem hB
  have hmem : chatOf ra rb ∈ activeChats rows :=
    mem_activeChats.mpr ⟨ra, hra, rb, hrb, by rw [hAB, hidb], by rw [hBA, hida],
      by rw [hida, hidb]; exact hlt, rfl⟩
  have huniq : ∀ c ∈ activeChats rows,
      (c.User1ID = A ∨ c.User2ID = A ∨ c.User1ID = B ∨ c.User2ID = B) → c = chatOf ra rb := by
    intro c hc hinv
    obtain ⟨u1, hu1, u2, hu2, h12, h21, hlt12, rfl⟩ := mem_activeChats.mp hc
    simp only [chatOf] at hinv
    rcases hinv with h | h | h | h
    · have e1 : u1 = ra := row_of_lookup hpk hA hu1 h
      have e2 : u2 = rb := row_of_lookup hpk hB hu2 (by rw [← h12, e1, hAB])
      rw [e1, e2]
    · have e2 : u2 = ra := row_of_lookup hpk hA hu2 h
      have e1 : u1 = rb := row_of_lookup hpk hB hu1 (by rw [← h21, e2, hAB])
      rw [e1, e2, hida, hidb] at hlt12
      omega
    · have e1 : u1 = rb := row_of_lookup hpk hB hu1 h
      have e2 : u2 = ra := row_of_lookup hpk hA hu2 (by rw [← h12, e1, hBA])
      rw [e1, e2, hida, hidb] at hlt12
      omega
    · have e2 : u2 = rb := row_of_lookup hpk hB hu2 h
      have e1 : u1 = ra := row_of_lookup hpk hA hu1 (by rw [← h21, e2, hBA])
      rw [e1, e2]
  obtain ⟨pre, post, hsplit⟩ := List.append_of_mem hmem
  have hnodup := activeChats_nodup hpk
  rw [hsplit, List.nodup_middle, List.nodup_cons, List.mem_append, not_or] at hnodup
  have hfree : ∀ c ∈ activeChats rows, c ≠ chatOf ra rb →
      (c.User1ID ≠ A ∧ c.User2ID ≠ A) ∧ (c.User1ID ≠ B ∧ c.User2ID ≠ B) := by
    intro c hc hne
    refine ⟨⟨?_, ?_⟩, ?_, ?_⟩ <;> intro h <;> exact hne (huniq c hc (by simp [h]))
  refine ⟨pre, post, hsplit, ?_, ?_⟩
  · intro c hc
    exact hfree c (by rw [hsplit]; simp [hc]) (fun e => hnodup.1.1 (e ▸ hc))
  · intro c hc
    exact hfree c (by rw [hsplit]; simp [hc]) (fun e => hnodup.1.2 (e ▸ hc))

theorem mostRecentActivity_chatOf (ra rb : UserRow) :
    mostRecentActivity (chatOf ra rb)
      = max (parseRFC3339 ra.last_activity) (parseRFC3339 rb.last_activity) := by
  unfold mostRecentActivity chatOf
  simp only []
  split <;> omega

/-- One sweep, seen from a pairing of `A < B`: what it does to the two rows and which of
the appended messages are for `A` and for `B`. -/
theorem sweep_pair (now : Nat) (w : World) (A B : Int) (ra rb : UserRow)
    (hpk : PrimaryKey w.users) (hA : lookup w.users A = some ra)
    (hB : lookup w.users B = some rb) (hAB : ra.current_chat = B)
    (hBA : rb.current_chat = A) (hlt : A < B) :
    ∃ added : List QueuedMessage,
      (checkAndEndInactiveChats noFail now w).2.msgQueue.queue = w.msgQueue.queue ++ added ∧
      (timedOut now (chatOf ra rb) →
        lookup (checkAndEndInactiveChats noFail now w).2.users A
          = some { ra with current_chat := 0 } ∧
        lookup (checkAndEndInactiveChats noFail now w).2.users B
          = some { rb with current_chat := 0 } ∧
        added.filter (fun m => decide (m.ChatID = A)) = [inactivityNotice A] ∧
        added.filter (fun m => decide (m.ChatID = B)) = [inactivityNotice B]) ∧
      (¬ timedOut now (chatOf ra rb) →
        lookup (checkAndEndInactiveChats noFail now w).2.users A = some ra ∧
        lookup (checkAndEndInactiveChats noFail now w).2.users B = some rb ∧
        added.filter (fun m => decide (m.ChatID = A)) = [] ∧
        added.filter (fun m => decide (m.ChatID = B)) = []) := by
  obtain ⟨pre, post, hsplit, hpre, hpost⟩ := activeChats_split hpk hA hB hAB hBA hlt
  have hne : A ≠ B := by omega
  have hida := (lookup_some_mem hA).2
  have hidb := (lookup_some_mem hB).2
  have hc1 : (chatOf ra rb).User1ID = A := hida
  have hc2 : (chatOf ra rb).User2ID = B := hidb
  refine ⟨reapNotices now (activeChats w.users), ?_, ?_, ?_⟩
  · simp only [checkAndEndInactiveChats, GetActiveChats_noFail]
    rw [foldl_endInactiveChat_queue]
  · intro hout
    simp only [checkAndEndInactiveChats, GetActiveChats_noFail]
    rw [hsplit, List.foldl_append, List.foldl_cons]
    have hpA := foldl_endInactiveChat_lookup now pre { w with calls := w.calls + 1 } A
      (fun c hc => (hpre c hc).1)
    have hpB := foldl_endInactiveChat_lookup now pre { w with calls := w.calls + 1 } B
      (fun c hc => (hpre c hc).2)
    simp only [] at hpA hpB
    rw [hA] at hpA
    rw [hB] at hpB
    rw [foldl_endInactiveChat_lookup now post _ A (fun c hc => (hpost c hc).1),
      foldl_endInactiveChat_lookup now post _ B (fun c hc => (hpost c hc).2),
      endInactiveChat_noFail, if_pos hout, hc1, hc2]
    simp only []
    rw [stateOf_of_lookup hpA, stateOf_of_lookup hpB, stateToRow_rowToState_clear hpA,
      stateToRow_rowToState_clear hpB]
    refine ⟨?_, ?_, ?_, ?_⟩
    · simp [lookup_upsert, hida, hidb, Ne.symm hne]
    · simp [lookup_upsert, hida, hidb]
    · rw [reapNotices_append, List.filter_append,
        reapNotices_filter_free now pre A (fun c hc => (hpre c hc).1)]
      have hcons : reapNotices now (chatOf ra rb :: post)
          = [inactivityNotice A, inactivityNotice B] ++ reapNotices now post := by
        unfold reapNotices
        rw [List.flatMap_cons, if_pos hout, hc1, hc2]
      rw [hcons, List.filter_append,
        reapNotices_filter_free now post A (fun c hc => (hpost c hc).1)]
      simp [inactivityNotice, textMessage, Ne.symm hne]
    · rw [reapNotices_append, List.filter_append,
        reapNotices_filter_free now pre B (fun c hc => (hpre c hc).2)]
      have hcons : reapNotices now (chatOf ra rb :: post)
          = [inactivityNotice A, inactivityNotice B] ++ reapNotices now post := by
        unfold reapNotices
        rw [List.flatMap_cons, if_pos hout, hc1, hc2]
      rw [hcons, List.filter_append,
        reapNotices_filter_free now post B (fun c hc => (hpost c hc).2)]
      simp [inactivityNotice, textMessage, hne]
  · intro hin
    simp only [checkAndEndInactiveChats, GetActiveChats_noFail]
    rw [hsplit, List.foldl_append, List.foldl_cons]
    have hpA := foldl_endInactiveChat_lookup now pre { w with calls := w.calls + 1 } A
      (fun c hc => (hpre c hc).1)
    have hpB := foldl_endInactiveChat_lookup now pre { w with calls := w.calls + 1 } B
      (fun c hc => (hpre c hc).2)
    simp only [] at hpA hpB
    rw [hA] at hpA
    rw [hB] at hpB
    rw [foldl_endInactiveChat_lookup now post _ A (fun c hc => (hpost c hc).1),
      foldl_endInactiveChat_lookup now post _ B (fun c hc => (hpost c hc).2),
      endInactiveChat_noFail, if_neg hin]
    refine ⟨hpA, hpB, ?_, ?_⟩
    · rw [reapNotices_append, List.filter_append,
        reapNotices_filter_free now pre A (fun c hc => (hpre c hc).1)]
      have hcons : reapNotices now (chatOf ra rb :: post) = reapNotices now post := by
        unfold reapNotices
        rw [List.flatMap_cons, if_neg hin, List.nil_append]
      rw [hcons, reapNotices_filter_free now post A (fun c hc => (hpost c hc).1)]
      rfl
    · rw [reapNotices_append, List.filter_append,
        reapNotices_filter_free now pre B (fun c hc => (hpre c hc).2)]
      have hcons : reapNotices now (chatOf ra rb :: post) = reapNotices now post := by
        unfold reapNotices
        rw [List.flatMap_cons, if_neg hin, List.nil_append]
      rw [hcons, reapNotices_filter_free now post B (fun c hc => (hpost c hc).2)]
      rfl

theorem timedOut_chatOf (now : Nat) (ra rb : UserRow) :
    timedOut now (chatOf ra rb) ↔
      (InactivityTimeout : Int) <
        (now : Int) -
          ((max (parseRFC3339 ra.last_activity) (parseRFC3339 rb.last_activity) : Nat) : Int) := by
  unfold timedOut
  rw [mostRecentActivity_chatOf]

/-- C13. One sweep ends an expired pairing exactly once: for users `A` and `B` paired
with each other whose later `last_activity` is more than the inactivity timeout before
`now` (for instance both 90 minutes before `now`, the timeout being 60 minutes), on a
store that does not fail, after one call of `checkAndEndInactiveChats` the rows of `A`
and `B` have `current_chat = 0` and are otherwise unchanged, and among the messages the
call has appended to the queue exactly one is for `A` and exactly one is for `B`, each
the notice "Chat ended due to inactivity!". -/
theorem sweep_ends_expired (now : Nat) (w : World) (A B : Int) (ra rb : UserRow)
    (hpk : PrimaryKey w.users) (hA : lookup w.users A = some ra)
    (hB : lookup w.users B = some rb) (hAB : ra.current_chat = B)
    (hBA : rb.current_chat = A) (hne : A ≠ B)
    (hidle : (InactivityTimeout : Int) <
      (now : Int) -
        ((max (parseRFC3339 ra.last_activity) (parseRFC3339 rb.last_activity) : Nat) : Int)) :
    (checkAndEndInactiveChats noFail now w).1 = false ∧
    lookup (checkAndEndInactiveChats noFail now w).2.users A
      = some { ra with current_chat := 0 } ∧
    lookup (checkAndEndInactiveChats noFail now w).2.users B
      = some { rb with current_chat := 0 } ∧
    ∃ added : List QueuedMessage,
      (checkAndEndInactiveChats noFail now w).2.msgQueue.queue = w.msgQueue.queue ++ added ∧
      added.filter (fun m => decide (m.ChatID = A))
        = [textMessage A "Chat ended due to inactivity!"] ∧
      added.filter (fun m => decide (m.ChatID = B))
        = [textMessage B "Chat ended due to inactivity!"] := by
  refine ⟨by simp [checkAndEndInactiveChats], ?_⟩
  rcases lt_or_gt_of_ne hne with hlt | hgt
  · obtain ⟨added, hq, hout, -⟩ := sweep_pair now w A B ra rb hpk hA hB hAB hBA hlt
    obtain ⟨h1, h2, h3, h4⟩ := hout ((timedOut_chatOf now ra rb).mpr hidle)
    exact ⟨h1, h2, added, hq, h3, h4⟩
  · obtain ⟨added, hq, hout, -⟩ := sweep_pair now w B A rb ra hpk hB hA hBA hAB hgt
    obtain ⟨h1, h2, h3, h4⟩ :=
      hout ((timedOut_chatOf now rb ra).mpr (by rw [max_comm]; exact hidle))
    exact ⟨h2, h1, added, hq, h4, h3⟩

theorem sweep_ends_expired_witness :
    lookup (checkAndEndInactiveChats noFail 6400000000000 sampleWorld).2.users 4
      = some { user_id := 4, is_active := true, current_chat := 0, last_activity := 1000,
               country := "", language := "", gender := "" } ∧
    lookup (checkAndEndInactiveChats noFail 6400000000000 sampleWorld).2.users 5
      = some { user_id := 5, is_active := true, current_chat := 0, last_activity := 1000,
               country := "", language := "", gender := "" } :=
  have h := sweep_ends_expired 6400000000000 sampleWorld 4 5
    { user_id := 4, is_active := true, current_chat := 5, last_activity := 1000,
      country := "", language := "", gender := "" }
    { user_id := 5, is_active := true, current_chat := 4, last_activity := 1000,
      country := "", language := "", gender := "" }
    (by decide) (by decide) (by decide) rfl rfl (by decide) (by decide)
  ⟨h.2.1, h.2.2.1⟩

/-- C14. The sweep leaves a pairing that is not idle for more than the timeout: for
users `A` and `B` paired with each other whose later `last_activity` is at most the
inactivity timeout before `now` (exactly the timeout included, and whichever of the two
was the one recently active), on a store that does not fail, after one call of
`checkAndEndInactiveChats` the rows of `A` and `B` are unchanged and none of the
messages the call has appended to the queue is for `A` or for `B`. -/
theorem sweep_keeps_recent (now : Nat) (w : World) (A B : Int) (ra rb : UserRow)
    (hpk : PrimaryKey w.users) (hA : lookup w.users A = some ra)
    (hB : lookup w.users B = some rb) (hAB : ra.current_chat = B)
    (hBA : rb.current_chat = A) (hne : A ≠ B)
    (hidle : (now : Int) -
        ((max (parseRFC3339 ra.last_activity) (parseRFC3339 rb.last_activity) : Nat) : Int)
      ≤ (InactivityTimeout : Int)) :
    lookup (checkAndEndInactiveChats noFail now w).2.users A = some ra ∧
    lookup (checkAndEndInactiveChats noFail now w).2.users B = some rb ∧
    ∃ added : List QueuedMessage,
      (checkAndEndInactiveChats noFail now w).2.msgQueue.queue = w.msgQueue.queue ++ added ∧
      added.filter (fun m => decide (m.ChatID = A)) = [] ∧
      added.filter (fun m => decide (m.ChatID = B)) = [] := by
  rcases lt_or_gt_of_ne hne with hlt | hgt
  · obtain ⟨added, hq, -, hin⟩ := sweep_pair now w A B ra rb hpk hA hB hAB hBA hlt
    obtain ⟨h1, h2, h3, h4⟩ :=
      hin (fun h => absurd ((timedOut_chatOf now ra rb).mp h) (not_lt.mpr hidle))
    exact ⟨h1, h2, added, hq, h3, h4⟩
  · obtain ⟨added, hq, -, hin⟩ := sweep_pair now w B A rb ra hpk hB hA hBA hAB hgt
    obtain ⟨h1, h2, h3, h4⟩ :=
      hin (fun h => absurd ((timedOut_chatOf now rb ra).mp h)
        (not_lt.mpr (by rw [max_comm]; exact hidle)))
    exact ⟨h2, h1, added, hq, h4, h3⟩

theorem sweep_keeps_recent_witness :
    lookup (checkAndEndInactiveChats noFail 4600000000000 sampleWorld).2.users 4
      = some { user_id := 4, is_active := true, current_chat := 5, last_activity := 1000,
               country := "", language := "", gender := "" } ∧
    lookup (checkAndEndInactiveChats noFail 4600000000000 sampleWorld).2.users 5
      = some { user_id := 5, is_active := true, current_chat := 4, last_activity := 1000,
               country := "", language := "", gender := "" } :=
  have h := sweep_keeps_recent 4600000000000 sampleWorld 4 5
    { user_id := 4, is_active := true, current_chat := 5, last_activity := 1000,
      country := "", language := "", gender := "" }
    { user_id := 5, is_active := true, current_chat := 4, last_activity := 1000,
      country := "", language := "", gender := "" }
    (by decide) (by decide) (by decide) rfl rfl (by decide) (by decide)
  ⟨h.1, h.2.1⟩

end TeleChat
